import Mathlib

/-!
Verification of the `GridData` regular-grid bilinear-interpolation data
structure (`icepack/grid/grid_data.py`).

The embedding models floating-point samples and coordinates as rationals,
masked array entries as `Option ℚ` (`none` = masked), and raised exceptions
as `Except ErrKind`.  Python's negative-index and slice conventions are
reproduced by dedicated helper functions so that the definitions below
follow the source line by line.
-/

deriving instance DecidableEq for Except

namespace Icepack

/-- Error kinds raised by the grid operations: shape mismatch and missing
mask specification at construction, out-of-domain and insufficient-data at
query time.  The source raises `ValueError` with distinct messages for each
of these situations. -/
inductive ErrKind
  | shapeMismatch
  | unspecifiedMask
  | outOfDomain
  | insufficientData
deriving DecidableEq, Repr

/-- Python-style index resolution: a negative index counts from the end of a
sequence of length `n`. -/
def pyIdx (n : ℕ) (i : ℤ) : ℕ :=
  if i < 0 then n - (-i).toNat else i.toNat

/-- Python-style sequence access with a default value. -/
def pyGetD (l : List α) (d : α) (i : ℤ) : α :=
  l.getD (pyIdx l.length i) d

/-- Python slice bound resolution: a negative bound counts from the end, and
bounds are clamped to the interval `[0, n]`. -/
def pyBound (n : ℕ) (i : ℤ) : ℕ :=
  if i < 0 then ((n : ℤ) + i).toNat else min i.toNat n

/-- Python-style slice `l[a:b]`. -/
def pySlice (l : List α) (a b : ℤ) : List α :=
  (l.take (pyBound l.length b)).drop (pyBound l.length a)

/-- Python `int(...)` conversion applied to a rational: truncation toward
zero. -/
def pyInt (q : ℚ) : ℤ :=
  if 0 ≤ q then ⌊q⌋ else ⌈q⌉

/-- `_index_of_point(x, y, X, Y)`: raises the out-of-domain error unless
`x[0] <= X <= x[-1]` and `y[0] <= Y <= y[-1]`, then computes
`i = int((Y - y[0]) / (y[1] - y[0]))`, `j = int((X - x[0]) / (x[1] - x[0]))`
and returns `(min(i, len(y) - 2), min(j, len(x) - 2))`. -/
def index_of_point (x y : List ℚ) (X Y : ℚ) : Except ErrKind (ℤ × ℤ) :=
  if ¬ (pyGetD x 0 0 ≤ X ∧ X ≤ pyGetD x 0 (-1) ∧
        pyGetD y 0 0 ≤ Y ∧ Y ≤ pyGetD y 0 (-1)) then
    .error .outOfDomain
  else
    let i := pyInt ((Y - pyGetD y 0 0) / (pyGetD y 0 1 - pyGetD y 0 0))
    let j := pyInt ((X - pyGetD x 0 0) / (pyGetD x 0 1 - pyGetD x 0 0))
    .ok (min i ((y.length : ℤ) - 2), min j ((x.length : ℤ) - 2))

/-- Entry `(i, j)` of a masked two-dimensional array; `none` encodes a masked
entry (`ma.masked`). -/
def qget (q : List (List (Option ℚ))) (i j : ℤ) : Option ℚ :=
  pyGetD (pyGetD q [] i) none j

/-- `_is_missing(q, i, j)`: whether any of the four samples `(k, l)` for
`k in (i, i+1)`, `l in (j, j+1)` is masked. -/
def is_missing (q : List (List (Option ℚ))) (i j : ℤ) : Bool :=
  (qget q i j).isNone || (qget q i (j + 1)).isNone ||
    (qget q (i + 1) j).isNone || (qget q (i + 1) (j + 1)).isNone

/-- A gridded data set: the two coordinate axes and the masked sample
array. -/
structure GridData where
  x : List ℚ
  y : List ℚ
  data : List (List (Option ℚ))
deriving DecidableEq, Repr

/-- `_bilinear_interp(q, X, Y)`: resolve the cell, fail with the
insufficient-data error when a corner is masked, and otherwise return the
bilinear combination of the four corner samples. -/
def bilinear_interp (q : GridData) (X Y : ℚ) : Except ErrKind ℚ :=
  match index_of_point q.x q.y X Y with
  | .error e => .error e
  | .ok (i, j) =>
    if is_missing q.data i j then
      .error .insufficientData
    else
      let ax := (X - pyGetD q.x 0 j) / (pyGetD q.x 0 1 - pyGetD q.x 0 0)
      let ay := (Y - pyGetD q.y 0 i) / (pyGetD q.y 0 1 - pyGetD q.y 0 0)
      let dq_dx := (qget q.data i (j + 1)).getD 0 - (qget q.data i j).getD 0
      let dq_dy := (qget q.data (i + 1) j).getD 0 - (qget q.data i j).getD 0
      let d2q_dx_dy := (qget q.data i j).getD 0 +
        (qget q.data (i + 1) (j + 1)).getD 0 -
        (qget q.data (i + 1) j).getD 0 - (qget q.data i (j + 1)).getD 0
      .ok ((qget q.data i j).getD 0 + ax * dq_dx + ay * dq_dy +
        ax * ay * d2q_dx_dy)

/-- The `data` argument of the constructor: either an `ma.MaskedArray`
(entries already carry their mask) or a plain `np.ndarray`. -/
inductive DataArg
  | premasked (d : List (List (Option ℚ)))
  | plain (d : List (List ℚ))
deriving DecidableEq, Repr

/-- `data.shape` of the constructor argument, as `(ny, nx)`. -/
def DataArg.shape : DataArg → ℕ × ℕ
  | .premasked d => (d.length, (d.headD []).length)
  | .plain d => (d.length, (d.headD []).length)

/-- `ma.masked_equal(data, value)`: mask every entry equal to the sentinel
value. -/
def masked_equal (d : List (List ℚ)) (v : ℚ) : List (List (Option ℚ)) :=
  d.map (fun row => row.map (fun a => if a = v then none else some a))

/-- `ma.MaskedArray(data=data, mask=mask)`: mask every entry whose mask flag
is `True`. -/
def masked_array (d : List (List ℚ)) (m : List (List Bool)) :
    List (List (Option ℚ)) :=
  List.zipWith
    (fun row mrow => List.zipWith (fun a b => if b then none else some a) row mrow)
    d m

/-- `GridData.__init__(x, y, data, mask=..., missing_data_value=...)`: check
the array shapes, then select the mask source in the source's branch order:
a pre-masked array first, else the sentinel value, else the boolean mask,
and fail when none applies. -/
def GridData.init (x y : List ℚ) (data : DataArg)
    (mask : Option (List (List Bool))) (missing_data_value : Option ℚ) :
    Except ErrKind GridData :=
  if x.length ≠ data.shape.2 ∨ y.length ≠ data.shape.1 then
    .error .shapeMismatch
  else
    match data, missing_data_value, mask with
    | .premasked d, _, _ => .ok ⟨x, y, d⟩
    | .plain d, some v, _ => .ok ⟨x, y, masked_equal d v⟩
    | .plain d, none, some m => .ok ⟨x, y, masked_array d m⟩
    | .plain _, none, none => .error .unspecifiedMask

/-- `GridData.__getitem__((i, j))`: the raw stored sample. -/
def GridData.getitem (g : GridData) (i j : ℤ) : Option ℚ :=
  qget g.data i j

/-- `GridData.is_masked(x)`: whether the data cannot be interpolated at the
point. -/
def GridData.is_masked (g : GridData) (p : ℚ × ℚ) : Except ErrKind Bool :=
  match index_of_point g.x g.y p.1 p.2 with
  | .error e => .error e
  | .ok (i, j) => .ok (is_missing g.data i j)

/-- `GridData.subset(xmin, ymin, xmax, ymax)`: clamp the rectangle to the
domain, resolve the two corner cells, slice the axes and the data with a
`+2` upper bound, and build the sub-grid from the (pre-masked) slice. -/
def GridData.subset (g : GridData) (xmin ymin xmax ymax : ℚ) :
    Except ErrKind GridData :=
  let Xmin := max xmin (pyGetD g.x 0 0)
  let Ymin := max ymin (pyGetD g.y 0 0)
  let Xmax := min xmax (pyGetD g.x 0 (-1))
  let Ymax := min ymax (pyGetD g.y 0 (-1))
  match index_of_point g.x g.y Xmin Ymin with
  | .error e => .error e
  | .ok (imin, jmin) =>
    match index_of_point g.x g.y Xmax Ymax with
    | .error e => .error e
    | .ok (imax, jmax) =>
      GridData.init (pySlice g.x jmin (jmax + 2)) (pySlice g.y imin (imax + 2))
        (.premasked ((pySlice g.data imin (imax + 2)).map
          (fun row => pySlice row jmin (jmax + 2)))) none none

/-- `GridData.__call__(x)`: evaluate the gridded data set at a point. -/
def GridData.evaluate (g : GridData) (p : ℚ × ℚ) : Except ErrKind ℚ :=
  bilinear_interp g p.1 p.2

/-- An axis is strictly increasing: each entry is smaller than the next. -/
def strictIncr (l : List ℚ) : Prop :=
  ∀ k, k + 1 < l.length → l.getD k 0 < l.getD (k + 1) 0

/-- An axis is uniformly spaced: every consecutive gap equals the first
gap `l[1] - l[0]`. -/
def uniformSpaced (l : List ℚ) : Prop :=
  ∀ k, k + 1 < l.length → l.getD (k + 1) 0 - l.getD k 0 = l.getD 1 0 - l.getD 0 0

/-- A two-dimensional array is rectangular with row length `n`. -/
def rectangular (d : List (List (Option ℚ))) (n : ℕ) : Prop :=
  ∀ r ∈ d, r.length = n

/-- A query point lies in the closed domain rectangle of the two axes. -/
def inDomain (x y : List ℚ) (X Y : ℚ) : Prop :=
  x.getD 0 0 ≤ X ∧ X ≤ x.getD (x.length - 1) 0 ∧
    y.getD 0 0 ≤ Y ∧ Y ≤ y.getD (y.length - 1) 0

instance (x y : List ℚ) (X Y : ℚ) : Decidable (inDomain x y X Y) := by
  unfold inDomain; infer_instance

instance (l : List ℚ) : Decidable (strictIncr l) :=
  @decidable_of_iff _ _
    (by constructor
        · intro h k hk
          exact h k (List.mem_range.mpr (by omega))
        · intro h k hk
          have hk2 := List.mem_range.mp hk
          exact h k (by omega))
    (List.decidableBAll (fun k => l.getD k 0 < l.getD (k + 1) 0)
      (List.range (l.length - 1)))

instance (l : List ℚ) : Decidable (uniformSpaced l) :=
  @decidable_of_iff _ _
    (by constructor
        · intro h k hk
          exact h k (List.mem_range.mpr (by omega))
        · intro h k hk
          have hk2 := List.mem_range.mp hk
          exact h k (by omega))
    (List.decidableBAll
      (fun k => l.getD (k + 1) 0 - l.getD k 0 = l.getD 1 0 - l.getD 0 0)
      (List.range (l.length - 1)))

theorem pyGetD_natCast (l : List α) (d : α) (k : ℕ) :
    pyGetD l d (k : ℤ) = l.getD k d := by
  unfold pyGetD pyIdx
  rw [if_neg (by omega)]
  simp

theorem pyGetD_nonneg (l : List α) (d : α) {i : ℤ} (h : 0 ≤ i) :
    pyGetD l d i = l.getD i.toNat d := by
  simp [pyGetD, pyIdx, not_lt.mpr h]

theorem pyGetD_zero (l : List α) (d : α) : pyGetD l d 0 = l.getD 0 d :=
  pyGetD_natCast l d 0

theorem pyGetD_one (l : List α) (d : α) : pyGetD l d 1 = l.getD 1 d :=
  pyGetD_natCast l d 1

theorem pyGetD_neg_one (l : List α) (d : α) :
    pyGetD l d (-1) = l.getD (l.length - 1) d := by
  simp [pyGetD, pyIdx]

theorem pyInt_nonneg {q : ℚ} (h : 0 ≤ q) : pyInt q = ⌊q⌋ := by
  simp [pyInt, h]

/-- Unfolding of `index_of_point` on an in-domain point. -/
theorem index_of_point_ok (x y : List ℚ) (X Y : ℚ) (h : inDomain x y X Y) :
    index_of_point x y X Y =
      .ok (min (pyInt ((Y - y.getD 0 0) / (y.getD 1 0 - y.getD 0 0)))
             ((y.length : ℤ) - 2),
           min (pyInt ((X - x.getD 0 0) / (x.getD 1 0 - x.getD 0 0)))
             ((x.length : ℤ) - 2)) := by
  obtain ⟨h1, h2, h3, h4⟩ := h
  rw [index_of_point, if_neg]
  · rw [pyGetD_zero, pyGetD_one, pyGetD_zero, pyGetD_one]
  · rw [pyGetD_zero, pyGetD_neg_one, pyGetD_zero, pyGetD_neg_one]
    push_neg
    exact ⟨h1, h2, h3, h4⟩

/-- Unfolding of `index_of_point` on an out-of-domain point. -/
theorem index_of_point_err (x y : List ℚ) (X Y : ℚ) (h : ¬ inDomain x y X Y) :
    index_of_point x y X Y = .error .outOfDomain := by
  rw [index_of_point, if_pos]
  rw [pyGetD_zero, pyGetD_neg_one, pyGetD_zero, pyGetD_neg_one]
  exact fun hc => h ⟨hc.1, hc.2.1, hc.2.2.1, hc.2.2.2⟩

/-- `index_of_point` raises the out-of-domain error precisely on points
outside the closed domain rectangle. -/
theorem index_of_point_err_iff (x y : List ℚ) (X Y : ℚ) :
    index_of_point x y X Y = .error .outOfDomain ↔ ¬ inDomain x y X Y := by
  constructor
  · intro h hdom
    rw [index_of_point_ok x y X Y hdom] at h
    exact Except.noConfusion h
  · exact index_of_point_err x y X Y

/-- Entries of a uniformly spaced axis in terms of the first entry and the
first gap. -/
theorem uniformSpaced_getD (l : List ℚ) (h : uniformSpaced l) (k : ℕ)
    (hk : k < l.length) :
    l.getD k 0 = l.getD 0 0 + k * (l.getD 1 0 - l.getD 0 0) := by
  induction k with
  | zero => simp
  | succ n ih =>
    have hs := h n hk
    have hn := ih (by omega)
    push_cast
    have : l.getD (n + 1) 0 = l.getD n 0 + (l.getD 1 0 - l.getD 0 0) := by
      linarith
    rw [this, hn]
    ring

/-- A strictly increasing axis is monotone over `getD` indices below the
length. -/
theorem strictIncr_le (l : List ℚ) (h : strictIncr l) {a b : ℕ} (hab : a ≤ b)
    (hb : b < l.length) : l.getD a 0 ≤ l.getD b 0 := by
  induction b with
  | zero =>
    have ha : a = 0 := by omega
    subst ha
    exact le_refl _
  | succ n ih =>
    rcases Nat.lt_or_ge a (n + 1) with hlt | hge
    · have h1 := h n hb
      have h2 := ih (by omega) (by omega)
      linarith
    · have ha : a = n + 1 := by omega
      subst ha
      exact le_refl _

/-- On an in-domain point of strictly-increasing-start axes, the resolved
cell indices are nonnegative and at most `len - 2`. -/
theorem index_of_point_bounds (x y : List ℚ) (X Y : ℚ)
    (hx2 : 2 ≤ x.length) (hy2 : 2 ≤ y.length)
    (hx01 : x.getD 0 0 < x.getD 1 0) (hy01 : y.getD 0 0 < y.getD 1 0)
    (hdom : inDomain x y X Y) :
    ∃ i j : ℤ, index_of_point x y X Y = .ok (i, j) ∧
      0 ≤ i ∧ i ≤ (y.length : ℤ) - 2 ∧ 0 ≤ j ∧ j ≤ (x.length : ℤ) - 2 := by
  obtain ⟨h1, h2, h3, h4⟩ := hdom
  refine ⟨_, _, index_of_point_ok x y X Y ⟨h1, h2, h3, h4⟩, ?_, ?_, ?_, ?_⟩
  · have hq : 0 ≤ (Y - y.getD 0 0) / (y.getD 1 0 - y.getD 0 0) :=
      div_nonneg (by linarith) (by linarith)
    rw [pyInt_nonneg hq]
    have hf : (0 : ℤ) ≤ ⌊(Y - y.getD 0 0) / (y.getD 1 0 - y.getD 0 0)⌋ :=
      Int.floor_nonneg.mpr hq
    exact le_min hf (by omega)
  · exact min_le_right _ _
  · have hq : 0 ≤ (X - x.getD 0 0) / (x.getD 1 0 - x.getD 0 0) :=
      div_nonneg (by linarith) (by linarith)
    rw [pyInt_nonneg hq]
    have hf : (0 : ℤ) ≤ ⌊(X - x.getD 0 0) / (x.getD 1 0 - x.getD 0 0)⌋ :=
      Int.floor_nonneg.mpr hq
    exact le_min hf (by omega)
  · exact min_le_right _ _

/-- On a uniformly spaced increasing axis, the clamped cell index brackets
the query coordinate: `x[j] ≤ X ≤ x[j+1]`. -/
theorem clamped_cell_brackets (x : List ℚ) (X : ℚ) (j : ℤ)
    (hu : uniformSpaced x) (h2 : 2 ≤ x.length)
    (h01 : x.getD 0 0 < x.getD 1 0)
    (hX1 : x.getD 0 0 ≤ X) (hX2 : X ≤ x.getD (x.length - 1) 0)
    (hj : j = min (pyInt ((X - x.getD 0 0) / (x.getD 1 0 - x.getD 0 0)))
      ((x.length : ℤ) - 2)) :
    0 ≤ j ∧ j ≤ (x.length : ℤ) - 2 ∧
      x.getD j.toNat 0 ≤ X ∧ X ≤ x.getD (j.toNat + 1) 0 := by
  set d : ℚ := x.getD 1 0 - x.getD 0 0 with hd
  have hdpos : 0 < d := by rw [hd]; linarith
  have hq : 0 ≤ (X - x.getD 0 0) / d := div_nonneg (by linarith) (by linarith)
  rw [pyInt_nonneg hq] at hj
  set f : ℤ := ⌊(X - x.getD 0 0) / d⌋ with hf
  have hfnn : (0 : ℤ) ≤ f := Int.floor_nonneg.mpr hq
  have hj0 : 0 ≤ j := by rw [hj]; exact le_min hfnn (by omega)
  have hjle : j ≤ (x.length : ℤ) - 2 := by rw [hj]; exact min_le_right _ _
  have hjf : j ≤ f := by rw [hj]; exact min_le_left _ _
  have hjnat : (j.toNat : ℤ) = j := Int.toNat_of_nonneg hj0
  have hjlt : j.toNat < x.length := by omega
  have hj1lt : j.toNat + 1 < x.length := by omega
  have hxj : x.getD j.toNat 0 = x.getD 0 0 + (j.toNat : ℚ) * d :=
    uniformSpaced_getD x hu j.toNat hjlt
  have hxj1 : x.getD (j.toNat + 1) 0 = x.getD 0 0 + ((j.toNat : ℚ) + 1) * d := by
    have h := uniformSpaced_getD x hu (j.toNat + 1) hj1lt
    rw [← hd] at h
    push_cast at h
    linarith
  refine ⟨hj0, hjle, ?_, ?_⟩
  · -- x[j] ≤ X since j ≤ f ≤ (X - x0)/d
    have hfle : (f : ℚ) ≤ (X - x.getD 0 0) / d := Int.floor_le _
    have hjq : ((j.toNat : ℚ)) ≤ (X - x.getD 0 0) / d := by
      have : ((j : ℚ)) ≤ (f : ℚ) := by exact_mod_cast hjf
      have hcast : ((j.toNat : ℚ)) = (j : ℚ) := by exact_mod_cast hjnat
      linarith
    have hmul : (j.toNat : ℚ) * d ≤ X - x.getD 0 0 := by
      have := (le_div_iff₀ hdpos).mp hjq
      linarith
    linarith [hxj, hmul]
  · -- X ≤ x[j+1]
    rcases le_or_lt f ((x.length : ℤ) - 2) with hcase | hcase
    · -- no clamping: j = f, use q < f + 1
      have hjef : j = f := by rw [hj]; exact min_eq_left hcase
      have hlt : (X - x.getD 0 0) / d < (f : ℚ) + 1 := Int.lt_floor_add_one _
      have hmul : X - x.getD 0 0 < ((f : ℚ) + 1) * d := by
        have := (div_lt_iff₀ hdpos).mp hlt
        linarith
      have hcast : ((j.toNat : ℚ)) = (f : ℚ) := by
        rw [← hjef]; exact_mod_cast hjnat
      rw [hxj1, hcast]
      linarith
    · -- clamped: j = len - 2, so x[j+1] is the last axis entry
      have hjlast : j = (x.length : ℤ) - 2 := by
        rw [hj]; exact min_eq_right (by omega)
      have : j.toNat + 1 = x.length - 1 := by omega
      rw [this]
      exact hX2

theorem bilinear_interp_err (g : GridData) (X Y : ℚ) (e : ErrKind)
    (h : index_of_point g.x g.y X Y = .error e) :
    bilinear_interp g X Y = .error e := by
  simp [bilinear_interp, h]

theorem bilinear_interp_missing (g : GridData) (X Y : ℚ) (i j : ℤ)
    (hij : index_of_point g.x g.y X Y = .ok (i, j))
    (hm : is_missing g.data i j = true) :
    bilinear_interp g X Y = .error .insufficientData := by
  simp [bilinear_interp, hij, hm]

theorem bilinear_interp_value (g : GridData) (X Y : ℚ) (i j : ℤ)
    (hij : index_of_point g.x g.y X Y = .ok (i, j))
    (hm : is_missing g.data i j = false) :
    bilinear_interp g X Y = .ok ((qget g.data i j).getD 0 +
      (X - pyGetD g.x 0 j) / (pyGetD g.x 0 1 - pyGetD g.x 0 0) *
        ((qget g.data i (j + 1)).getD 0 - (qget g.data i j).getD 0) +
      (Y - pyGetD g.y 0 i) / (pyGetD g.y 0 1 - pyGetD g.y 0 0) *
        ((qget g.data (i + 1) j).getD 0 - (qget g.data i j).getD 0) +
      (X - pyGetD g.x 0 j) / (pyGetD g.x 0 1 - pyGetD g.x 0 0) *
        ((Y - pyGetD g.y 0 i) / (pyGetD g.y 0 1 - pyGetD g.y 0 0)) *
        ((qget g.data i j).getD 0 + (qget g.data (i + 1) (j + 1)).getD 0 -
          (qget g.data (i + 1) j).getD 0 - (qget g.data i (j + 1)).getD 0)) := by
  simp [bilinear_interp, hij, hm]

theorem is_masked_of_index (g : GridData) (p : ℚ × ℚ) (i j : ℤ)
    (hij : index_of_point g.x g.y p.1 p.2 = .ok (i, j)) :
    g.is_masked p = .ok (is_missing g.data i j) := by
  simp [GridData.is_masked, hij]

theorem is_masked_err (g : GridData) (p : ℚ × ℚ) (e : ErrKind)
    (h : index_of_point g.x g.y p.1 p.2 = .error e) :
    g.is_masked p = .error e := by
  simp [GridData.is_masked, h]

theorem inDomain_of_index_ok (x y : List ℚ) (X Y : ℚ) (r : ℤ × ℤ)
    (h : index_of_point x y X Y = .ok r) : inDomain x y X Y := by
  by_contra hnd
  rw [index_of_point_err x y X Y hnd] at h
  exact Except.noConfusion h

theorem uniformSpaced_01 : uniformSpaced [0, 1] := by
  intro k hk
  simp only [List.length_cons, List.length_nil] at hk
  have hk2 : k < 1 := by omega
  interval_cases k
  norm_num [List.getD]

theorem uniformSpaced_012 : uniformSpaced [0, 1, 2] := by
  intro k hk
  simp only [List.length_cons, List.length_nil] at hk
  have hk2 : k < 2 := by omega
  interval_cases k <;> norm_num [List.getD]

theorem uniformSpaced_0123 : uniformSpaced [0, 1, 2, 3] := by
  intro k hk
  simp only [List.length_cons, List.length_nil] at hk
  have hk2 : k < 3 := by omega
  interval_cases k <;> norm_num [List.getD]

theorem index_01_01_half : index_of_point [0, 1] [0, 1] (1/2) (1/2) = .ok (0, 0) := by
  rw [index_of_point_ok _ _ _ _ (by norm_num [inDomain, List.getD])]
  norm_num [List.getD, pyInt]

/-- C1: for a `GridData` with strictly increasing, uniformly spaced axes of
length at least two, and an in-domain query point whose resolved cell
`(i, j)` has all four corners unmasked, `evaluate` returns
`q00 + ax*(q01 - q00) + ay*(q10 - q00) + ax*ay*(q00 + q11 - q10 - q01)`
with `ax = (X - x[j]) / (x[1] - x[0])` and `ay = (Y - y[i]) / (y[1] - y[0])`. -/
theorem C1_evaluate_bilinear_formula (g : GridData) (X Y : ℚ) (i j : ℤ)
    (hsx : strictIncr g.x) (hsy : strictIncr g.y)
    (hux : uniformSpaced g.x) (huy : uniformSpaced g.y)
    (hx2 : 2 ≤ g.x.length) (hy2 : 2 ≤ g.y.length)
    (hij : index_of_point g.x g.y X Y = .ok (i, j))
    (q00 q01 q10 q11 : ℚ)
    (h00 : g.getitem i j = some q00)
    (h01 : g.getitem i (j + 1) = some q01)
    (h10 : g.getitem (i + 1) j = some q10)
    (h11 : g.getitem (i + 1) (j + 1) = some q11) :
    g.evaluate (X, Y) = .ok
      (q00 +
        (X - g.x.getD j.toNat 0) / (g.x.getD 1 0 - g.x.getD 0 0) * (q01 - q00) +
        (Y - g.y.getD i.toNat 0) / (g.y.getD 1 0 - g.y.getD 0 0) * (q10 - q00) +
        (X - g.x.getD j.toNat 0) / (g.x.getD 1 0 - g.x.getD 0 0) *
          ((Y - g.y.getD i.toNat 0) / (g.y.getD 1 0 - g.y.getD 0 0)) *
          (q00 + q11 - q10 - q01)) := by
  have hdom : inDomain g.x g.y X Y := inDomain_of_index_ok _ _ _ _ _ hij
  obtain ⟨i2, j2, h', hi0, _, hj0, _⟩ :=
    index_of_point_bounds g.x g.y X Y hx2 hy2 (hsx 0 (by omega)) (hsy 0 (by omega)) hdom
  rw [hij] at h'
  have hpair : (i, j) = (i2, j2) := (Except.ok.injEq _ _).mp h'
  obtain ⟨rfl, rfl⟩ : i = i2 ∧ j = j2 :=
    ⟨congrArg Prod.fst hpair, congrArg Prod.snd hpair⟩
  unfold GridData.getitem at h00 h01 h10 h11
  have hm : is_missing g.data i j = false := by
    simp [is_missing, h00, h01, h10, h11]
  have hv := bilinear_interp_value g X Y i j hij hm
  rw [GridData.evaluate, hv, pyGetD_nonneg _ _ hi0, pyGetD_nonneg _ _ hj0,
    pyGetD_zero, pyGetD_one, pyGetD_zero, pyGetD_one, h00, h01, h10, h11]
  rfl

/-- C1 witness: on the grid `x = [0,1]`, `y = [0,1]`,
`values = [[0,1],[2,3]]` with no masked entry, `evaluate((0.5, 0.5))`
returns `1.5`. -/
theorem C1_evaluate_bilinear_formula_witness :
    (⟨[0, 1], [0, 1], [[some 0, some 1], [some 2, some 3]]⟩ : GridData).evaluate
      (1/2, 1/2) = .ok (3/2) := by
  have h := C1_evaluate_bilinear_formula
    ⟨[0, 1], [0, 1], [[some 0, some 1], [some 2, some 3]]⟩ (1/2) (1/2) 0 0
    (by decide) (by decide) uniformSpaced_01 uniformSpaced_01 (by decide)
    (by decide) index_01_01_half 0 1 2 3 (by decide) (by decide) (by decide)
    (by decide)
  rw [h]
  norm_num [List.getD]

/-- C2: at an in-domain query point, if any of the four corners of the
resolved cell is masked then `evaluate` fails with the insufficient-data
error and `is_masked` answers `true`; if all four corners are unmasked then
`evaluate` returns a value and `is_masked` answers `false`. -/
theorem C2_missing_data_propagation (g : GridData) (X Y : ℚ) (i j : ℤ)
    (hij : index_of_point g.x g.y X Y = .ok (i, j)) :
    ((qget g.data i j = none ∨ qget g.data i (j + 1) = none ∨
        qget g.data (i + 1) j = none ∨ qget g.data (i + 1) (j + 1) = none) →
      g.evaluate (X, Y) = .error .insufficientData ∧
        g.is_masked (X, Y) = .ok true) ∧
    ((qget g.data i j ≠ none ∧ qget g.data i (j + 1) ≠ none ∧
        qget g.data (i + 1) j ≠ none ∧ qget g.data (i + 1) (j + 1) ≠ none) →
      (∃ v, g.evaluate (X, Y) = .ok v) ∧ g.is_masked (X, Y) = .ok false) := by
  have hmask := is_masked_of_index g (X, Y) i j hij
  constructor
  · intro hmiss
    have hm : is_missing g.data i j = true := by
      simp only [is_missing, Bool.or_eq_true, Option.isNone_iff_eq_none]
      tauto
    exact ⟨bilinear_interp_missing g X Y i j hij hm, by rw [hmask, hm]⟩
  · intro hok
    have hm : is_missing g.data i j = false := by
      simp only [is_missing, Bool.or_eq_false_iff, Option.isNone_eq_false_iff,
        Option.isSome_iff_ne_none]
      tauto
    exact ⟨⟨_, bilinear_interp_value g X Y i j hij hm⟩, by rw [hmask, hm]⟩

/-- C2 witness: on `x = [0,1]`, `y = [0,1]` with the corner `(1,1)` masked,
`evaluate((0.5, 0.5))` fails with the insufficient-data error and
`is_masked` answers `true`; with no masked corner it succeeds and
`is_masked` answers `false`. -/
theorem C2_missing_data_propagation_witness :
    ((⟨[0, 1], [0, 1], [[some 0, some 1], [some 2, none]]⟩ : GridData).evaluate
        (1/2, 1/2) = .error .insufficientData ∧
      (⟨[0, 1], [0, 1], [[some 0, some 1], [some 2, none]]⟩ : GridData).is_masked
        (1/2, 1/2) = .ok true) ∧
    ((∃ v, (⟨[0, 1], [0, 1], [[some 0, some 1], [some 2, some 3]]⟩ :
        GridData).evaluate (1/2, 1/2) = .ok v) ∧
      (⟨[0, 1], [0, 1], [[some 0, some 1], [some 2, some 3]]⟩ :
        GridData).is_masked (1/2, 1/2) = .ok false) := by
  constructor
  · exact (C2_missing_data_propagation
      ⟨[0, 1], [0, 1], [[some 0, some 1], [some 2, none]]⟩ (1/2) (1/2) 0 0
      index_01_01_half).1 (by decide)
  · exact (C2_missing_data_propagation
      ⟨[0, 1], [0, 1], [[some 0, some 1], [some 2, some 3]]⟩ (1/2) (1/2) 0 0
      index_01_01_half).2 (by decide)

/-- C3: `evaluate` and `is_masked` fail with the out-of-domain error exactly
on points outside the closed domain rectangle `[x[0], x[-1]] × [y[0], y[-1]]`,
and `evaluate((x[0] - eps, y[0]))` fails with the out-of-domain error for
every `eps > 0`. -/
theorem C3_out_of_domain_iff (g : GridData) (X Y eps : ℚ) (heps : 0 < eps) :
    (g.evaluate (X, Y) = .error .outOfDomain ↔ ¬ inDomain g.x g.y X Y) ∧
    (g.is_masked (X, Y) = .error .outOfDomain ↔ ¬ inDomain g.x g.y X Y) ∧
    g.evaluate (g.x.getD 0 0 - eps, g.y.getD 0 0) = .error .outOfDomain := by
  have hout : ¬ inDomain g.x g.y (g.x.getD 0 0 - eps) (g.y.getD 0 0) := by
    intro hdom
    have := hdom.1
    linarith
  refine ⟨⟨?_, ?_⟩, ⟨?_, ?_⟩, ?_⟩
  · intro h
    by_contra hdom
    obtain ⟨i, j, hij⟩ : ∃ i j, index_of_point g.x g.y X Y = .ok (i, j) := by
      rw [index_of_point_ok g.x g.y X Y hdom]
      exact ⟨_, _, rfl⟩
    rcases hm : is_missing g.data i j with _ | _
    · rw [GridData.evaluate, bilinear_interp_value g X Y i j hij hm] at h
      exact Except.noConfusion h
    · rw [GridData.evaluate, bilinear_interp_missing g X Y i j hij hm] at h
      simp at h
  · intro hdom
    exact bilinear_interp_err g X Y _ (index_of_point_err g.x g.y X Y hdom)
  · intro h
    by_contra hdom
    obtain ⟨i, j, hij⟩ : ∃ i j, index_of_point g.x g.y X Y = .ok (i, j) := by
      rw [index_of_point_ok g.x g.y X Y hdom]
      exact ⟨_, _, rfl⟩
    rw [is_masked_of_index g (X, Y) i j hij] at h
    exact Except.noConfusion h
  · intro hdom
    exact is_masked_err g (X, Y) _ (index_of_point_err g.x g.y X Y hdom)
  · exact bilinear_interp_err g _ _ _ (index_of_point_err g.x g.y _ _ hout)

/-- C3 witness: on `x = [0,1]`, `y = [0,1]`, `values = [[0,1],[2,3]]`, the
out-of-domain characterisation holds at `(-1, 0)`, the point `(0 - 1, 0)`
fails with the out-of-domain error, and the boundary evaluations
`(0, 0)` and `(1, 1)` succeed. -/
theorem index_01_00 : index_of_point [0, 1] [0, 1] 0 0 = .ok (0, 0) := by
  rw [index_of_point_ok _ _ _ _ (by norm_num [inDomain, List.getD])]
  norm_num [List.getD, pyInt]

theorem index_01_11 : index_of_point [0, 1] [0, 1] 1 1 = .ok (0, 0) := by
  rw [index_of_point_ok _ _ _ _ (by norm_num [inDomain, List.getD])]
  norm_num [List.getD, pyInt]

theorem C3_out_of_domain_iff_witness :
    ((⟨[0, 1], [0, 1], [[some 0, some 1], [some 2, some 3]]⟩ : GridData).evaluate
        ((0 : ℚ) - 1, 0) = .error .outOfDomain) ∧
    ((⟨[0, 1], [0, 1], [[some 0, some 1], [some 2, some 3]]⟩ : GridData).evaluate
        (0, 0) = .ok 0) ∧
    ((⟨[0, 1], [0, 1], [[some 0, some 1], [some 2, some 3]]⟩ : GridData).evaluate
        (1, 1) = .ok 3) := by
  refine ⟨?_, ?_, ?_⟩
  · have h := C3_out_of_domain_iff
      ⟨[0, 1], [0, 1], [[some 0, some 1], [some 2, some 3]]⟩ 0 0 1 (by norm_num)
    have h3 := h.2.2
    simpa [List.getD] using h3
  · rw [GridData.evaluate, bilinear_interp_value _ _ _ 0 0 index_01_00 (by decide)]
    norm_num [qget, pyGetD, pyIdx, List.getD]
  · rw [GridData.evaluate, bilinear_interp_value _ _ _ 0 0 index_01_11 (by decide)]
    norm_num [qget, pyGetD, pyIdx, List.getD]

/-- C9: for strictly increasing axes of length at least two and an in-domain
query point, the resolved cell indices satisfy `0 ≤ i ≤ ny - 2` and
`0 ≤ j ≤ nx - 2`, so `i + 1 < ny` and `j + 1 < nx` and the four corner
accesses are in bounds. -/
theorem C9_resolved_index_bounds (x y : List ℚ) (X Y : ℚ)
    (hsx : strictIncr x) (hsy : strictIncr y)
    (hx2 : 2 ≤ x.length) (hy2 : 2 ≤ y.length)
    (hdom : inDomain x y X Y) :
    ∃ i j : ℤ, index_of_point x y X Y = .ok (i, j) ∧
      0 ≤ i ∧ i ≤ (y.length : ℤ) - 2 ∧ 0 ≤ j ∧ j ≤ (x.length : ℤ) - 2 ∧
      i + 1 < (y.length : ℤ) ∧ j + 1 < (x.length : ℤ) := by
  obtain ⟨i, j, h, hi0, hi, hj0, hj⟩ :=
    index_of_point_bounds x y X Y hx2 hy2 (hsx 0 (by omega)) (hsy 0 (by omega)) hdom
  exact ⟨i, j, h, hi0, hi, hj0, hj, by omega, by omega⟩

/-- C9 witness: bounds at a concrete in-domain point of the grid
`x = [0,1,2,3]`, `y = [0,1,2]`. -/
theorem C9_resolved_index_bounds_witness :
    ∃ i j : ℤ, index_of_point [0, 1, 2, 3] [0, 1, 2] 3 2 = .ok (i, j) ∧
      0 ≤ i ∧ i ≤ (([0, 1, 2] : List ℚ).length : ℤ) - 2 ∧
      0 ≤ j ∧ j ≤ (([0, 1, 2, 3] : List ℚ).length : ℤ) - 2 ∧
      i + 1 < (([0, 1, 2] : List ℚ).length : ℤ) ∧
      j + 1 < (([0, 1, 2, 3] : List ℚ).length : ℤ) :=
  C9_resolved_index_bounds [0, 1, 2, 3] [0, 1, 2] 3 2
    (by decide) (by decide) (by decide) (by decide) (by decide)

/-- C5 counterexample: providing two mask specifications at once (a
pre-masked array together with an explicit boolean mask) still succeeds,
because the constructor's branch order simply picks the first applicable
specification; so construction does not succeed *only* when exactly one is
provided. -/
theorem C5_exactly_one_counterexample :
    GridData.init [0, 1] [0, 1]
      (.premasked [[some 0, some 1], [some 2, some 3]])
      (some [[false, false], [false, false]]) none =
      .ok ⟨[0, 1], [0, 1], [[some 0, some 1], [some 2, some 3]]⟩ := by
  decide

/-- C5 (amended): with matching shapes, construction fails — with the
missing-mask-specification error — exactly when none of the three mask
specifications is provided, and succeeds whenever at least one is provided
(a pre-masked array taking precedence over the sentinel value over the
boolean mask). -/
theorem C5_mask_specification (x y : List ℚ) (data : DataArg)
    (mask : Option (List (List Bool))) (missing_data_value : Option ℚ)
    (hx : x.length = data.shape.2) (hy : y.length = data.shape.1) :
    (GridData.init x y data mask missing_data_value = .error .unspecifiedMask ↔
      (∃ d, data = .plain d) ∧ mask = none ∧ missing_data_value = none) ∧
    ((∃ g, GridData.init x y data mask missing_data_value = .ok g) ↔
      ((∃ d, data = .premasked d) ∨ missing_data_value ≠ none ∨ mask ≠ none)) := by
  rcases data with d | d <;>
    rcases missing_data_value with _ | v <;>
    rcases mask with _ | m <;>
    simp [GridData.init, hx, hy]

/-- C5 witness: with no mask specification at all, construction fails with
the missing-mask-specification error. -/
theorem C5_mask_specification_witness :
    GridData.init [0] [0] (.plain [[5]]) none none =
      .error .unspecifiedMask :=
  (C5_mask_specification [0] [0] (.plain [[5]]) none none
    (by decide) (by decide)).1.mpr ⟨⟨_, rfl⟩, rfl, rfl⟩

theorem masked_row_eq (r : List ℚ) (mr : List Bool) (s : ℚ)
    (hlen : mr.length = r.length)
    (henc : ∀ l, l < r.length → (r.getD l 0 = s ↔ mr.getD l false = true)) :
    List.zipWith (fun a b => if b then none else some a) r mr
      = r.map (fun a => if a = s then none else some a) := by
  induction r generalizing mr with
  | nil => simp
  | cons a rt ih =>
    rcases mr with _ | ⟨b, mrt⟩
    · simp at hlen
    · simp only [List.zipWith_cons_cons, List.map_cons]
      have h0 := henc 0 (by simp)
      simp only [List.getD_cons_zero] at h0
      have hhead : (if b then (none : Option ℚ) else some a) =
          (if a = s then none else some a) := by
        rcases b with _ | _
        · rw [if_neg (by simp), if_neg (by simp [h0])]
        · rw [if_pos (by simp), if_pos (h0.mpr rfl)]
      rw [hhead, ih mrt (by simpa using hlen)]
      intro l hl
      have := henc (l + 1) (by simpa using hl)
      simpa using this

theorem masked_array_eq_masked_equal (v : List (List ℚ))
    (m : List (List Bool)) (s : ℚ)
    (hlen : m.length = v.length)
    (hrow : ∀ k, k < v.length → (m.getD k []).length = (v.getD k []).length)
    (henc : ∀ k, k < v.length → ∀ l, l < (v.getD k []).length →
      ((v.getD k []).getD l 0 = s ↔ (m.getD k []).getD l false = true)) :
    masked_array v m = masked_equal v s := by
  induction v generalizing m with
  | nil => simp [masked_array, masked_equal]
  | cons r vt ih =>
    rcases m with _ | ⟨mr, mt⟩
    · simp at hlen
    · have hhead : List.zipWith (fun a b => if b then none else some a) r mr
          = r.map (fun a => if a = s then none else some a) := by
        apply masked_row_eq r mr s
        · simpa using hrow 0 (by simp)
        · intro l hl
          simpa using henc 0 (by simp) l (by simpa using hl)
      have htail : masked_array vt mt = masked_equal vt s := by
        apply ih mt (by simpa using hlen)
        · intro k hk
          simpa using hrow (k + 1) (by simpa using hk)
        · intro k hk l hl
          simpa using henc (k + 1) (by simpa using hk) l (by simpa using hl)
      simp only [masked_array, masked_equal, List.zipWith_cons_cons,
        List.map_cons] at htail ⊢
      rw [hhead, htail]

/-- C6: when the same set of missing cells is encoded as a pre-masked
array, as an explicit boolean mask, and as a sentinel value, the three
constructed grids give identical `evaluate` and `is_masked` results at
every query point. -/
theorem C6_three_mask_specs_equivalent (x y : List ℚ) (v : List (List ℚ))
    (m : List (List Bool)) (s : ℚ)
    (hlen : m.length = v.length)
    (hrow : ∀ k, k < v.length → (m.getD k []).length = (v.getD k []).length)
    (henc : ∀ k, k < v.length → ∀ l, l < (v.getD k []).length →
      ((v.getD k []).getD l 0 = s ↔ (m.getD k []).getD l false = true))
    (ga gb gc : GridData)
    (ha : GridData.init x y (.premasked (masked_array v m)) none none = .ok ga)
    (hb : GridData.init x y (.plain v) (some m) none = .ok gb)
    (hc : GridData.init x y (.plain v) none (some s) = .ok gc) :
    ∀ X Y : ℚ, ga.evaluate (X, Y) = gb.evaluate (X, Y) ∧
      gb.evaluate (X, Y) = gc.evaluate (X, Y) ∧
      ga.is_masked (X, Y) = gb.is_masked (X, Y) ∧
      gb.is_masked (X, Y) = gc.is_masked (X, Y) := by
  have hdata : masked_array v m = masked_equal v s :=
    masked_array_eq_masked_equal v m s hlen hrow henc
  have hga : ga = ⟨x, y, masked_array v m⟩ := by
    unfold GridData.init at ha
    split at ha
    · exact absurd ha (by simp)
    · simpa using ha.symm
  have hgb : gb = ⟨x, y, masked_array v m⟩ := by
    unfold GridData.init at hb
    split at hb
    · exact absurd hb (by simp)
    · simpa using hb.symm
  have hgc : gc = ⟨x, y, masked_equal v s⟩ := by
    unfold GridData.init at hc
    split at hc
    · exact absurd hc (by simp)
    · simpa using hc.symm
  have hac : ga = gb := by rw [hga, hgb]
  have hbc : gb = gc := by rw [hgb, hgc, hdata]
  intro X Y
  rw [hac, hbc]
  exact ⟨rfl, rfl, rfl, rfl⟩

/-- C6 witness: the grid `x = [0,1]`, `y = [0,1]`, values `[[0,1],[2,3]]`
with cell `(1,1)` missing, encoded as a pre-masked array, as a boolean
mask, and as the sentinel value `3`: the three constructions succeed and
agree on `evaluate` and `is_masked` at `(1/2, 1/2)`. -/
theorem C6_three_mask_specs_equivalent_witness :
    ∃ ga gb gc : GridData,
      GridData.init [0, 1] [0, 1]
          (.premasked (masked_array [[0, 1], [2, 3]]
            [[false, false], [false, true]])) none none = .ok ga ∧
      GridData.init [0, 1] [0, 1] (.plain [[0, 1], [2, 3]])
          (some [[false, false], [false, true]]) none = .ok gb ∧
      GridData.init [0, 1] [0, 1] (.plain [[0, 1], [2, 3]])
          none (some 3) = .ok gc ∧
      ga.evaluate (1/2, 1/2) = gb.evaluate (1/2, 1/2) ∧
      gb.evaluate (1/2, 1/2) = gc.evaluate (1/2, 1/2) ∧
      ga.is_masked (1/2, 1/2) = gb.is_masked (1/2, 1/2) ∧
      gb.is_masked (1/2, 1/2) = gc.is_masked (1/2, 1/2) := by
  refine ⟨⟨[0, 1], [0, 1], [[some 0, some 1], [some 2, none]]⟩,
    ⟨[0, 1], [0, 1], [[some 0, some 1], [some 2, none]]⟩,
    ⟨[0, 1], [0, 1], [[some 0, some 1], [some 2, none]]⟩,
    by decide, by decide, by decide, ?_⟩
  have h := C6_three_mask_specs_equivalent [0, 1] [0, 1] [[0, 1], [2, 3]]
    [[false, false], [false, true]] 3 (by decide) (by decide) (by decide)
    ⟨[0, 1], [0, 1], [[some 0, some 1], [some 2, none]]⟩
    ⟨[0, 1], [0, 1], [[some 0, some 1], [some 2, none]]⟩
    ⟨[0, 1], [0, 1], [[some 0, some 1], [some 2, none]]⟩
    (by decide) (by decide) (by decide) (1/2) (1/2)
  exact ⟨h.1, h.2.1, h.2.2.1, h.2.2.2⟩

theorem index_of_point_error_kind (x y : List ℚ) (X Y : ℚ) (e : ErrKind)
    (h : index_of_point x y X Y = .error e) : e = .outOfDomain := by
  unfold index_of_point at h
  split at h
  · exact (Except.error.injEq _ _).mp h |>.symm
  · exact Except.noConfusion h

theorem pyInt_mono {p q : ℚ} (hp : 0 ≤ p) (hpq : p ≤ q) :
    pyInt p ≤ pyInt q := by
  rw [pyInt_nonneg hp, pyInt_nonneg (le_trans hp hpq)]
  exact Int.floor_le_floor hpq

/-- Length of a Python slice with ordered in-range integer bounds. -/
theorem pySlice_length (l : List α) (a b : ℤ) (ha : 0 ≤ a) (hab : a ≤ b)
    (hb : b ≤ (l.length : ℤ)) :
    ((pySlice l a b).length : ℤ) = b - a := by
  unfold pySlice pyBound
  rw [if_neg (by omega), if_neg (by omega)]
  rw [List.length_drop, List.length_take]
  omega

/-- Entries of a Python slice with ordered in-range integer bounds. -/
theorem pySlice_getD (l : List α) (d : α) (a b : ℤ) (k : ℕ) (ha : 0 ≤ a)
    (hk : (k : ℤ) < b - a) (hb : b ≤ (l.length : ℤ)) :
    (pySlice l a b).getD k d = l.getD (a.toNat + k) d := by
  unfold pySlice pyBound
  rw [if_neg (by omega), if_neg (by omega)]
  rw [List.getD_eq_getElem?_getD, List.getD_eq_getElem?_getD,
    List.getElem?_drop, List.getElem?_take]
  rw [if_pos (by omega)]
  have hmin : a.toNat ⊓ l.length = a.toNat := by omega
  rw [hmin]

theorem pySlice_mem (l : List (List (Option ℚ))) (a b : ℤ)
    (r : List (Option ℚ)) (h : r ∈ pySlice l a b) : r ∈ l :=
  List.mem_of_mem_take (List.mem_of_mem_drop h)

/-- The clamped cell index `min(int((t - l[0]) / (l[1] - l[0])), len(l) - 2)`
computed by `_index_of_point` along one axis. -/
def clampIdx (l : List ℚ) (t : ℚ) : ℤ :=
  min (pyInt ((t - l.getD 0 0) / (l.getD 1 0 - l.getD 0 0))) ((l.length : ℤ) - 2)

theorem index_of_point_ok_clamp (x y : List ℚ) (X Y : ℚ)
    (h : inDomain x y X Y) :
    index_of_point x y X Y = .ok (clampIdx y Y, clampIdx x X) := by
  rw [index_of_point_ok x y X Y h]
  rfl

theorem clampIdx_nonneg (l : List ℚ) (t : ℚ) (h2 : 2 ≤ l.length)
    (h01 : l.getD 0 0 < l.getD 1 0) (ht : l.getD 0 0 ≤ t) :
    0 ≤ clampIdx l t := by
  unfold clampIdx
  have hq : 0 ≤ (t - l.getD 0 0) / (l.getD 1 0 - l.getD 0 0) :=
    div_nonneg (by linarith) (by linarith)
  rw [pyInt_nonneg hq]
  exact le_min (Int.floor_nonneg.mpr hq) (by omega)

theorem clampIdx_le (l : List ℚ) (t : ℚ) :
    clampIdx l t ≤ (l.length : ℤ) - 2 :=
  min_le_right _ _

theorem clampIdx_mono (l : List ℚ) {t1 t2 : ℚ}
    (h01 : l.getD 0 0 < l.getD 1 0) (ht1 : l.getD 0 0 ≤ t1) (h12 : t1 ≤ t2) :
    clampIdx l t1 ≤ clampIdx l t2 := by
  unfold clampIdx
  have hq : 0 ≤ (t1 - l.getD 0 0) / (l.getD 1 0 - l.getD 0 0) :=
    div_nonneg (by linarith) (by linarith)
  have hd : 0 < l.getD 1 0 - l.getD 0 0 := by linarith
  have hmono : (t1 - l.getD 0 0) / (l.getD 1 0 - l.getD 0 0) ≤
      (t2 - l.getD 0 0) / (l.getD 1 0 - l.getD 0 0) := by
    gcongr
  exact min_le_min (pyInt_mono hq hmono) (le_refl _)

theorem clampIdx_exact (l : List ℚ) (hu : uniformSpaced l) (h2 : 2 ≤ l.length)
    (h01 : l.getD 0 0 < l.getD 1 0) (k : ℕ) (hk : k < l.length) :
    clampIdx l (l.getD k 0) = min (k : ℤ) ((l.length : ℤ) - 2) := by
  unfold clampIdx
  have hl := uniformSpaced_getD l hu k hk
  have hd : l.getD 1 0 - l.getD 0 0 ≠ 0 := by linarith
  have hsub : l.getD 0 0 + (k : ℚ) * (l.getD 1 0 - l.getD 0 0) - l.getD 0 0 =
      (k : ℚ) * (l.getD 1 0 - l.getD 0 0) := by ring
  have hq : (l.getD k 0 - l.getD 0 0) / (l.getD 1 0 - l.getD 0 0) = (k : ℚ) := by
    rw [hl, hsub, mul_div_assoc, div_self hd, mul_one]
  rw [hq, pyInt_nonneg (by positivity), Int.floor_natCast]

theorem subset_eq (g : GridData) (xmin ymin xmax ymax : ℚ)
    (imin jmin imax jmax : ℤ)
    (h1 : index_of_point g.x g.y (max xmin (g.x.getD 0 0))
      (max ymin (g.y.getD 0 0)) = .ok (imin, jmin))
    (h2 : index_of_point g.x g.y (min xmax (g.x.getD (g.x.length - 1) 0))
      (min ymax (g.y.getD (g.y.length - 1) 0)) = .ok (imax, jmax)) :
    g.subset xmin ymin xmax ymax =
      GridData.init (pySlice g.x jmin (jmax + 2)) (pySlice g.y imin (imax + 2))
        (.premasked ((pySlice g.data imin (imax + 2)).map
          (fun row => pySlice row jmin (jmax + 2)))) none none := by
  unfold GridData.subset
  simp only [pyGetD_zero, pyGetD_neg_one, h1, h2]

theorem subset_err_first (g : GridData) (xmin ymin xmax ymax : ℚ) (e : ErrKind)
    (h1 : index_of_point g.x g.y (max xmin (g.x.getD 0 0))
      (max ymin (g.y.getD 0 0)) = .error e) :
    g.subset xmin ymin xmax ymax = .error e := by
  unfold GridData.subset
  simp only [pyGetD_zero, pyGetD_neg_one, h1]

theorem subset_err_second (g : GridData) (xmin ymin xmax ymax : ℚ)
    (imin jmin : ℤ) (e : ErrKind)
    (h1 : index_of_point g.x g.y (max xmin (g.x.getD 0 0))
      (max ymin (g.y.getD 0 0)) = .ok (imin, jmin))
    (h2 : index_of_point g.x g.y (min xmax (g.x.getD (g.x.length - 1) 0))
      (min ymax (g.y.getD (g.y.length - 1) 0)) = .error e) :
    g.subset xmin ymin xmax ymax = .error e := by
  unfold GridData.subset
  simp only [pyGetD_zero, pyGetD_neg_one, h1, h2]

theorem init_premasked (x y : List ℚ) (d : List (List (Option ℚ)))
    (hx : x.length = (d.headD []).length) (hy : y.length = d.length) :
    GridData.init x y (.premasked d) none none = .ok ⟨x, y, d⟩ := by
  unfold GridData.init
  rw [if_neg]
  push_neg
  exact ⟨hx, hy⟩

/-- Core result on `subset`: when the clamped corners are in-domain and
ordered, both corner cells resolve, their indices are ordered and in range,
and `subset` returns exactly the sliced grid built from the pre-masked data
slice. -/
theorem subset_ok_core (g : GridData) (xmin ymin xmax ymax : ℚ)
    (hx2 : 2 ≤ g.x.length) (hy2 : 2 ≤ g.y.length)
    (hdlen : g.data.length = g.y.length)
    (hrect : rectangular g.data g.x.length)
    (hx01 : g.x.getD 0 0 < g.x.getD 1 0) (hy01 : g.y.getD 0 0 < g.y.getD 1 0)
    (hdom1 : inDomain g.x g.y (max xmin (g.x.getD 0 0)) (max ymin (g.y.getD 0 0)))
    (hdom2 : inDomain g.x g.y (min xmax (g.x.getD (g.x.length - 1) 0))
      (min ymax (g.y.getD (g.y.length - 1) 0)))
    (hxle : max xmin (g.x.getD 0 0) ≤ min xmax (g.x.getD (g.x.length - 1) 0))
    (hyle : max ymin (g.y.getD 0 0) ≤ min ymax (g.y.getD (g.y.length - 1) 0)) :
    ∃ imin jmin imax jmax : ℤ,
      index_of_point g.x g.y (max xmin (g.x.getD 0 0))
        (max ymin (g.y.getD 0 0)) = .ok (imin, jmin) ∧
      index_of_point g.x g.y (min xmax (g.x.getD (g.x.length - 1) 0))
        (min ymax (g.y.getD (g.y.length - 1) 0)) = .ok (imax, jmax) ∧
      0 ≤ imin ∧ imin ≤ imax ∧ imax ≤ (g.y.length : ℤ) - 2 ∧
      0 ≤ jmin ∧ jmin ≤ jmax ∧ jmax ≤ (g.x.length : ℤ) - 2 ∧
      g.subset xmin ymin xmax ymax = .ok
        ⟨pySlice g.x jmin (jmax + 2), pySlice g.y imin (imax + 2),
          (pySlice g.data imin (imax + 2)).map
            fun row => pySlice row jmin (jmax + 2)⟩ := by
  have e1 := index_of_point_ok_clamp g.x g.y _ _ hdom1
  have e2 := index_of_point_ok_clamp g.x g.y _ _ hdom2
  have hi0 : 0 ≤ clampIdx g.y (max ymin (g.y.getD 0 0)) :=
    clampIdx_nonneg _ _ hy2 hy01 (le_max_right _ _)
  have hii : clampIdx g.y (max ymin (g.y.getD 0 0)) ≤
      clampIdx g.y (min ymax (g.y.getD (g.y.length - 1) 0)) :=
    clampIdx_mono _ hy01 (le_max_right _ _) hyle
  have hile : clampIdx g.y (min ymax (g.y.getD (g.y.length - 1) 0)) ≤
      (g.y.length : ℤ) - 2 := clampIdx_le _ _
  have hj0 : 0 ≤ clampIdx g.x (max xmin (g.x.getD 0 0)) :=
    clampIdx_nonneg _ _ hx2 hx01 (le_max_right _ _)
  have hjj : clampIdx g.x (max xmin (g.x.getD 0 0)) ≤
      clampIdx g.x (min xmax (g.x.getD (g.x.length - 1) 0)) :=
    clampIdx_mono _ hx01 (le_max_right _ _) hxle
  have hjle : clampIdx g.x (min xmax (g.x.getD (g.x.length - 1) 0)) ≤
      (g.x.length : ℤ) - 2 := clampIdx_le _ _
  refine ⟨_, _, _, _, e1, e2, hi0, hii, hile, hj0, hjj, hjle, ?_⟩
  rw [subset_eq g xmin ymin xmax ymax _ _ _ _ e1 e2]
  have hxlen := pySlice_length g.x (clampIdx g.x (max xmin (g.x.getD 0 0)))
    (clampIdx g.x (min xmax (g.x.getD (g.x.length - 1) 0)) + 2)
    hj0 (by omega) (by omega)
  have hylen := pySlice_length g.y (clampIdx g.y (max ymin (g.y.getD 0 0)))
    (clampIdx g.y (min ymax (g.y.getD (g.y.length - 1) 0)) + 2)
    hi0 (by omega) (by omega)
  have hdslen := pySlice_length g.data (clampIdx g.y (max ymin (g.y.getD 0 0)))
    (clampIdx g.y (min ymax (g.y.getD (g.y.length - 1) 0)) + 2)
    hi0 (by omega) (by rw [hdlen]; omega)
  apply init_premasked
  · -- x'.length = head row length
    have hne : pySlice g.data (clampIdx g.y (max ymin (g.y.getD 0 0)))
        (clampIdx g.y (min ymax (g.y.getD (g.y.length - 1) 0)) + 2) ≠ [] := by
      intro hempty
      have hzero : ((pySlice g.data (clampIdx g.y (max ymin (g.y.getD 0 0)))
          (clampIdx g.y (min ymax (g.y.getD (g.y.length - 1) 0)) + 2)).length
            : ℤ) = 0 := by
        rw [hempty]
        rfl
      omega
    obtain ⟨r0, rt, hcons⟩ := List.exists_cons_of_ne_nil hne
    have hr0 : r0 ∈ g.data := by
      apply pySlice_mem g.data _ _ r0
      rw [hcons]
      exact List.mem_cons_self r0 rt
    have hr0len : r0.length = g.x.length := hrect r0 hr0
    have hrowlen := pySlice_length r0 (clampIdx g.x (max xmin (g.x.getD 0 0)))
      (clampIdx g.x (min xmax (g.x.getD (g.x.length - 1) 0)) + 2)
      hj0 (by omega) (by rw [hr0len]; omega)
    rw [hcons]
    simp only [List.map_cons, List.headD_cons]
    omega
  · -- y'.length = number of rows
    rw [List.length_map]
    omega

/-- C10: on a well-formed grid with strictly increasing axes, when the
clamped rectangle corners are in-domain and ordered on each axis, `subset`
succeeds via the pre-masked construction branch: it returns the grid whose
axes and masked data are exactly the Python slices of the parent's, the
axis lengths are at least two, the data has one row per `y` entry, and
every data row has one entry per `x` entry. -/
theorem C10_subset_wellformed (g : GridData) (xmin ymin xmax ymax : ℚ)
    (hx2 : 2 ≤ g.x.length) (hy2 : 2 ≤ g.y.length)
    (hdlen : g.data.length = g.y.length)
    (hrect : rectangular g.data g.x.length)
    (hsx : strictIncr g.x) (hsy : strictIncr g.y)
    (hdom1 : inDomain g.x g.y (max xmin (g.x.getD 0 0)) (max ymin (g.y.getD 0 0)))
    (hdom2 : inDomain g.x g.y (min xmax (g.x.getD (g.x.length - 1) 0))
      (min ymax (g.y.getD (g.y.length - 1) 0)))
    (hxle : max xmin (g.x.getD 0 0) ≤ min xmax (g.x.getD (g.x.length - 1) 0))
    (hyle : max ymin (g.y.getD 0 0) ≤ min ymax (g.y.getD (g.y.length - 1) 0)) :
    ∃ g' : GridData, g.subset xmin ymin xmax ymax = .ok g' ∧
      2 ≤ g'.x.length ∧ 2 ≤ g'.y.length ∧
      g'.data.length = g'.y.length ∧ rectangular g'.data g'.x.length ∧
      ∃ imin jmin imax jmax : ℤ,
        g'.x = pySlice g.x jmin (jmax + 2) ∧
        g'.y = pySlice g.y imin (imax + 2) ∧
        g'.data = (pySlice g.data imin (imax + 2)).map
          fun row => pySlice row jmin (jmax + 2) := by
  obtain ⟨imin, jmin, imax, jmax, e1, e2, hi0, hii, hile, hj0, hjj, hjle, hok⟩ :=
    subset_ok_core g xmin ymin xmax ymax hx2 hy2 hdlen hrect
      (hsx 0 (by omega)) (hsy 0 (by omega)) hdom1 hdom2 hxle hyle
  refine ⟨_, hok, ?_, ?_, ?_, ?_, imin, jmin, imax, jmax, rfl, rfl, rfl⟩
  · show 2 ≤ (pySlice g.x jmin (jmax + 2)).length
    have := pySlice_length g.x jmin (jmax + 2) hj0 (by omega) (by omega)
    omega
  · show 2 ≤ (pySlice g.y imin (imax + 2)).length
    have := pySlice_length g.y imin (imax + 2) hi0 (by omega) (by omega)
    omega
  · show ((pySlice g.data imin (imax + 2)).map
        fun row => pySlice row jmin (jmax + 2)).length =
      (pySlice g.y imin (imax + 2)).length
    have h1 := pySlice_length g.y imin (imax + 2) hi0 (by omega) (by omega)
    have h2 := pySlice_length g.data imin (imax + 2) hi0 (by omega)
      (by rw [hdlen]; omega)
    simp only [List.length_map]
    omega
  · show rectangular ((pySlice g.data imin (imax + 2)).map
      fun row => pySlice row jmin (jmax + 2)) (pySlice g.x jmin (jmax + 2)).length
    intro r hr
    simp only [List.mem_map] at hr
    obtain ⟨r0, hr0, rfl⟩ := hr
    have hr0mem : r0 ∈ g.data := pySlice_mem _ _ _ _ hr0
    have hr0len : r0.length = g.x.length := hrect r0 hr0mem
    have ha := pySlice_length r0 jmin (jmax + 2) hj0 (by omega)
      (by rw [hr0len]; omega)
    have hb := pySlice_length g.x jmin (jmax + 2) hj0 (by omega) (by omega)
    omega

/-- C10 witness: a concrete subset of the grid `x = [0,1,2,3]`,
`y = [0,1,2]` is well-formed. -/
theorem C10_subset_wellformed_witness :
    ∃ g' : GridData,
      (⟨[0, 1, 2, 3], [0, 1, 2],
        [[some 1, some 1, some 1, some 1], [some 1, some 1, some 1, some 1],
         [some 1, some 1, some 1, some 1]]⟩ : GridData).subset
        (1/2) (1/2) (3/2) (3/2) = .ok g' ∧
      2 ≤ g'.x.length ∧ 2 ≤ g'.y.length ∧
      g'.data.length = g'.y.length ∧ rectangular g'.data g'.x.length ∧
      ∃ imin jmin imax jmax : ℤ,
        g'.x = pySlice [0, 1, 2, 3] jmin (jmax + 2) ∧
        g'.y = pySlice [0, 1, 2] imin (imax + 2) ∧
        g'.data = (pySlice
          [[some 1, some 1, some 1, some 1], [some 1, some 1, some 1, some 1],
           [some 1, some 1, some 1, some 1]] imin (imax + 2)).map
          fun row => pySlice row jmin (jmax + 2) :=
  C10_subset_wellformed
    ⟨[0, 1, 2, 3], [0, 1, 2],
      [[some 1, some 1, some 1, some 1], [some 1, some 1, some 1, some 1],
       [some 1, some 1, some 1, some 1]]⟩ (1/2) (1/2) (3/2) (3/2)
    (by decide) (by decide) (by decide)
    (by intro r hr; fin_cases hr <;> rfl)
    (by decide) (by decide)
    (by constructor
        · norm_num [List.getD]
        · refine ⟨?_, ?_, ?_⟩ <;> norm_num [List.getD])
    (by constructor
        · norm_num [List.getD]
        · refine ⟨?_, ?_, ?_⟩ <;> norm_num [List.getD])
    (by norm_num [List.getD]) (by norm_num [List.getD])

/-- C4 counterexample: requesting a rectangle entirely to the right of the
domain is not silently clamped — `subset` raises the out-of-domain error,
because the clamped lower corner `max(xmin, x[0]) = 5` still lies beyond
`x[-1] = 1` when it is passed to the index computation. -/
theorem C4_subset_counterexample :
    (⟨[0, 1], [0, 1], [[some 1, some 1], [some 1, some 1]]⟩ :
      GridData).subset 5 0 6 1 = .error .outOfDomain := by
  apply subset_err_first
  apply index_of_point_err
  intro hdom
  have h := hdom.2.1
  norm_num [List.getD] at h

/-- C4 (amended): for a well-formed grid with strictly increasing axes and
a requested rectangle with `xmin ≤ xmax` and `ymin ≤ ymax`, `subset` raises
no error and returns a grid exactly when the rectangle meets the domain on
both axes (`xmin ≤ x[-1]`, `x[0] ≤ xmax`, `ymin ≤ y[-1]`, `y[0] ≤ ymax`);
a rectangle lying entirely beyond the domain on some side makes the
clamped corner out-of-domain and `subset` raises the out-of-domain
error. -/
theorem C4_subset_clamps_or_out_of_domain (g : GridData)
    (xmin ymin xmax ymax : ℚ)
    (hx2 : 2 ≤ g.x.length) (hy2 : 2 ≤ g.y.length)
    (hdlen : g.data.length = g.y.length)
    (hrect : rectangular g.data g.x.length)
    (hsx : strictIncr g.x) (hsy : strictIncr g.y)
    (hxx : xmin ≤ xmax) (hyy : ymin ≤ ymax) :
    ((xmin ≤ g.x.getD (g.x.length - 1) 0 ∧ g.x.getD 0 0 ≤ xmax ∧
      ymin ≤ g.y.getD (g.y.length - 1) 0 ∧ g.y.getD 0 0 ≤ ymax) →
      ∃ g', g.subset xmin ymin xmax ymax = .ok g') ∧
    ((g.x.getD (g.x.length - 1) 0 < xmin ∨ g.y.getD (g.y.length - 1) 0 < ymin ∨
      xmax < g.x.getD 0 0 ∨ ymax < g.y.getD 0 0) →
      g.subset xmin ymin xmax ymax = .error .outOfDomain) := by
  have hxlast : g.x.getD 0 0 ≤ g.x.getD (g.x.length - 1) 0 :=
    strictIncr_le g.x hsx (by omega) (by omega)
  have hylast : g.y.getD 0 0 ≤ g.y.getD (g.y.length - 1) 0 :=
    strictIncr_le g.y hsy (by omega) (by omega)
  constructor
  · rintro ⟨h1, h2, h3, h4⟩
    obtain ⟨imin, jmin, imax, jmax, _, _, _, _, _, _, _, _, hok⟩ :=
      subset_ok_core g xmin ymin xmax ymax hx2 hy2 hdlen hrect
        (hsx 0 (by omega)) (hsy 0 (by omega))
        ⟨le_max_right _ _, max_le h1 hxlast, le_max_right _ _, max_le h3 hylast⟩
        ⟨le_min h2 hxlast, min_le_right _ _, le_min h4 hylast, min_le_right _ _⟩
        (max_le (le_min hxx h1) (le_min h2 hxlast))
        (max_le (le_min hyy h3) (le_min h4 hylast))
    exact ⟨_, hok⟩
  · rintro (hc | hc | hc | hc)
    · apply subset_err_first
      apply index_of_point_err
      rintro ⟨_, hX, _, _⟩
      have := le_max_left xmin (g.x.getD 0 0)
      linarith
    · apply subset_err_first
      apply index_of_point_err
      rintro ⟨_, _, _, hY⟩
      have := le_max_left ymin (g.y.getD 0 0)
      linarith
    · cases hfirst : index_of_point g.x g.y (max xmin (g.x.getD 0 0))
        (max ymin (g.y.getD 0 0)) with
      | error e =>
        rw [subset_err_first g _ _ _ _ e hfirst,
          index_of_point_error_kind _ _ _ _ e hfirst]
      | ok p =>
        obtain ⟨imin, jmin⟩ := p
        apply subset_err_second g _ _ _ _ imin jmin .outOfDomain hfirst
        apply index_of_point_err
        rintro ⟨hX, _, _, _⟩
        have := min_le_left xmax (g.x.getD (g.x.length - 1) 0)
        linarith
    · cases hfirst : index_of_point g.x g.y (max xmin (g.x.getD 0 0))
        (max ymin (g.y.getD 0 0)) with
      | error e =>
        rw [subset_err_first g _ _ _ _ e hfirst,
          index_of_point_error_kind _ _ _ _ e hfirst]
      | ok p =>
        obtain ⟨imin, jmin⟩ := p
        apply subset_err_second g _ _ _ _ imin jmin .outOfDomain hfirst
        apply index_of_point_err
        rintro ⟨_, _, hY, _⟩
        have := min_le_left ymax (g.y.getD (g.y.length - 1) 0)
        linarith

/-- C4 witness: a rectangle extending beyond the domain on the lower-left
is silently clamped and `subset` succeeds. -/
theorem C4_subset_clamps_witness :
    ∃ g', (⟨[0, 1], [0, 1], [[some 1, some 1], [some 1, some 1]]⟩ :
      GridData).subset (-1) (-1) (1/2) (1/2) = .ok g' :=
  (C4_subset_clamps_or_out_of_domain
    ⟨[0, 1], [0, 1], [[some 1, some 1], [some 1, some 1]]⟩ (-1) (-1) (1/2) (1/2)
    (by decide) (by decide) (by decide)
    (by intro r hr; fin_cases hr <;> rfl)
    (by decide) (by decide) (by norm_num) (by norm_num)).1
    (by refine ⟨?_, ?_, ?_, ?_⟩ <;> norm_num [List.getD])

theorem eq_some_getD (o : Option ℚ) (h : o.isNone = false) :
    o = some (o.getD 0) := by
  cases o with
  | none => simp at h
  | some a => rfl

/-- C7: on a grid with uniformly spaced, strictly increasing axes, for any
grid indices `(i, j)` whose point `(x[j], y[i])` resolves to a cell with
all four corners unmasked, `evaluate` at the exact coordinate `(x[j], y[i])`
returns exactly the stored sample `GridData[i, j]`. -/
theorem C7_exact_at_sample_points (g : GridData) (i j : ℕ)
    (hsx : strictIncr g.x) (hsy : strictIncr g.y)
    (hux : uniformSpaced g.x) (huy : uniformSpaced g.y)
    (hx2 : 2 ≤ g.x.length) (hy2 : 2 ≤ g.y.length)
    (hi : i < g.y.length) (hj : j < g.x.length)
    (ic jc : ℤ)
    (hp : index_of_point g.x g.y (g.x.getD j 0) (g.y.getD i 0) = .ok (ic, jc))
    (hm : is_missing g.data ic jc = false) :
    ∃ v, g.getitem (i : ℤ) (j : ℤ) = some v ∧
      g.evaluate (g.x.getD j 0, g.y.getD i 0) = .ok v := by
  have hx01 : g.x.getD 0 0 < g.x.getD 1 0 := hsx 0 (by omega)
  have hy01 : g.y.getD 0 0 < g.y.getD 1 0 := hsy 0 (by omega)
  have hdom : inDomain g.x g.y (g.x.getD j 0) (g.y.getD i 0) :=
    ⟨strictIncr_le g.x hsx (by omega) (by omega),
     strictIncr_le g.x hsx (by omega) (by omega),
     strictIncr_le g.y hsy (by omega) (by omega),
     strictIncr_le g.y hsy (by omega) (by omega)⟩
  have hp2 := index_of_point_ok_clamp g.x g.y _ _ hdom
  rw [hp] at hp2
  have hpair : (ic, jc) =
      (clampIdx g.y (g.y.getD i 0), clampIdx g.x (g.x.getD j 0)) :=
    (Except.ok.injEq _ _).mp hp2
  have hic : ic = min (i : ℤ) ((g.y.length : ℤ) - 2) := by
    have h := congrArg Prod.fst hpair
    rw [clampIdx_exact g.y huy hy2 hy01 i hi] at h
    exact h
  have hjc : jc = min (j : ℤ) ((g.x.length : ℤ) - 2) := by
    have h := congrArg Prod.snd hpair
    rw [clampIdx_exact g.x hux hx2 hx01 j hj] at h
    exact h
  have hvalue := bilinear_interp_value g _ _ ic jc hp hm
  have hm4 := hm
  simp only [is_missing, Bool.or_eq_false_iff] at hm4
  obtain ⟨⟨⟨h00, h01⟩, h10⟩, h11⟩ := hm4
  have hdx : (0 : ℚ) < pyGetD g.x 0 1 - pyGetD g.x 0 0 := by
    rw [pyGetD_zero, pyGetD_one]
    linarith
  have hdy : (0 : ℚ) < pyGetD g.y 0 1 - pyGetD g.y 0 0 := by
    rw [pyGetD_zero, pyGetD_one]
    linarith
  have hyB : (g.y.length : ℤ) - 2 < (i : ℤ) →
      (g.y.getD i 0 - pyGetD g.y 0 ic) /
        (pyGetD g.y 0 1 - pyGetD g.y 0 0) = 1 ∧ ic = (g.y.length : ℤ) - 2 := by
    intro hiB
    have hi1 : i = g.y.length - 1 := by omega
    have hici : ic = (g.y.length : ℤ) - 2 := by
      rw [hic]
      exact min_eq_right (by omega)
    have hpy : pyGetD g.y 0 ic = g.y.getD (g.y.length - 2) 0 := by
      rw [hici, pyGetD_nonneg _ _ (by omega)]
      congr 1
      omega
    have hgap := huy (g.y.length - 2) (by omega)
    have hstep : g.y.getD (g.y.length - 2 + 1) 0 =
        g.y.getD (g.y.length - 1) 0 := by
      congr 1
      omega
    rw [hstep] at hgap
    refine ⟨?_, hici⟩
    rw [hpy, hi1, pyGetD_zero, pyGetD_one, hgap]
    exact div_self (by linarith)
  have hxB : (g.x.length : ℤ) - 2 < (j : ℤ) →
      (g.x.getD j 0 - pyGetD g.x 0 jc) /
        (pyGetD g.x 0 1 - pyGetD g.x 0 0) = 1 ∧ jc = (g.x.length : ℤ) - 2 := by
    intro hjB
    have hj1 : j = g.x.length - 1 := by omega
    have hjcj : jc = (g.x.length : ℤ) - 2 := by
      rw [hjc]
      exact min_eq_right (by omega)
    have hpx : pyGetD g.x 0 jc = g.x.getD (g.x.length - 2) 0 := by
      rw [hjcj, pyGetD_nonneg _ _ (by omega)]
      congr 1
      omega
    have hgap := hux (g.x.length - 2) (by omega)
    have hstep : g.x.getD (g.x.length - 2 + 1) 0 =
        g.x.getD (g.x.length - 1) 0 := by
      congr 1
      omega
    rw [hstep] at hgap
    refine ⟨?_, hjcj⟩
    rw [hpx, hj1, pyGetD_zero, pyGetD_one, hgap]
    exact div_self (by linarith)
  rcases le_or_lt ((j : ℤ)) ((g.x.length : ℤ) - 2) with hjA | hjB <;>
    rcases le_or_lt ((i : ℤ)) ((g.y.length : ℤ) - 2) with hiA | hiB
  · -- interior in both axes: the cell is (i, j) itself
    have hjcj : jc = (j : ℤ) := by rw [hjc]; exact min_eq_left hjA
    have hici : ic = (i : ℤ) := by rw [hic]; exact min_eq_left hiA
    have hax : (g.x.getD j 0 - pyGetD g.x 0 jc) /
        (pyGetD g.x 0 1 - pyGetD g.x 0 0) = 0 := by
      rw [hjcj, pyGetD_natCast, sub_self, zero_div]
    have hay : (g.y.getD i 0 - pyGetD g.y 0 ic) /
        (pyGetD g.y 0 1 - pyGetD g.y 0 0) = 0 := by
      rw [hici, pyGetD_natCast, sub_self, zero_div]
    rw [hax, hay] at hvalue
    refine ⟨(qget g.data ic jc).getD 0, ?_, ?_⟩
    · rw [GridData.getitem, ← hici, ← hjcj]
      exact eq_some_getD _ h00
    · rw [GridData.evaluate, hvalue]
      congr 1
      ring
  · -- last row: the cell is (i - 1, j), the sample is its upper corner
    have hjcj : jc = (j : ℤ) := by rw [hjc]; exact min_eq_left hjA
    obtain ⟨hay, hici⟩ := hyB hiB
    have hax : (g.x.getD j 0 - pyGetD g.x 0 jc) /
        (pyGetD g.x 0 1 - pyGetD g.x 0 0) = 0 := by
      rw [hjcj, pyGetD_natCast, sub_self, zero_div]
    rw [hax, hay] at hvalue
    refine ⟨(qget g.data (ic + 1) jc).getD 0, ?_, ?_⟩
    · rw [GridData.getitem]
      have h1 : (i : ℤ) = ic + 1 := by omega
      rw [h1, ← hjcj]
      exact eq_some_getD _ h10
    · rw [GridData.evaluate, hvalue]
      congr 1
      ring
  · -- last column: the cell is (i, j - 1), the sample is its right corner
    have hici : ic = (i : ℤ) := by rw [hic]; exact min_eq_left hiA
    obtain ⟨hax, hjcj⟩ := hxB hjB
    have hay : (g.y.getD i 0 - pyGetD g.y 0 ic) /
        (pyGetD g.y 0 1 - pyGetD g.y 0 0) = 0 := by
      rw [hici, pyGetD_natCast, sub_self, zero_div]
    rw [hax, hay] at hvalue
    refine ⟨(qget g.data ic (jc + 1)).getD 0, ?_, ?_⟩
    · rw [GridData.getitem]
      have h1 : (j : ℤ) = jc + 1 := by omega
      rw [h1, ← hici]
      exact eq_some_getD _ h01
    · rw [GridData.evaluate, hvalue]
      congr 1
      ring
  · -- upper-right corner of the grid
    obtain ⟨hax, hjcj⟩ := hxB hjB
    obtain ⟨hay, hici⟩ := hyB hiB
    rw [hax, hay] at hvalue
    refine ⟨(qget g.data (ic + 1) (jc + 1)).getD 0, ?_, ?_⟩
    · rw [GridData.getitem]
      have h1 : (i : ℤ) = ic + 1 := by omega
      have h2 : (j : ℤ) = jc + 1 := by omega
      rw [h1, h2]
      exact eq_some_getD _ h11
    · rw [GridData.evaluate, hvalue]
      congr 1
      ring

/-- C7 witness: on the grid `x = [0,1,2,3]`, `y = [0,1,2]` with pairwise
distinct samples, evaluation at the grid corner `(x[3], y[2])` — which the
index computation clamps to the cell `(1, 2)` — returns the stored sample
at indices `(2, 3)`. -/
theorem C7_exact_at_sample_points_witness :
    ∃ v, (⟨[0, 1, 2, 3], [0, 1, 2],
        [[some 10, some 11, some 12, some 13],
         [some 20, some 21, some 22, some 23],
         [some 30, some 31, some 32, some 33]]⟩ : GridData).getitem 2 3 =
        some v ∧
      (⟨[0, 1, 2, 3], [0, 1, 2],
        [[some 10, some 11, some 12, some 13],
         [some 20, some 21, some 22, some 23],
         [some 30, some 31, some 32, some 33]]⟩ : GridData).evaluate
        (([0, 1, 2, 3] : List ℚ).getD 3 0, ([0, 1, 2] : List ℚ).getD 2 0) =
        .ok v :=
  C7_exact_at_sample_points
    ⟨[0, 1, 2, 3], [0, 1, 2],
      [[some 10, some 11, some 12, some 13],
       [some 20, some 21, some 22, some 23],
       [some 30, some 31, some 32, some 33]]⟩ 2 3
    (by decide) (by decide) uniformSpaced_0123 uniformSpaced_012
    (by decide) (by decide) (by decide) (by decide) 1 2
    (by rw [index_of_point_ok _ _ _ _ (by norm_num [inDomain, List.getD])]
        norm_num [List.getD, pyInt])
    (by decide)

theorem getD_map_pySlice (l : List (List (Option ℚ))) (jmin jmax : ℤ) (n : ℕ) :
    (l.map fun row => pySlice row jmin (jmax + 2)).getD n [] =
      pySlice (l.getD n []) jmin (jmax + 2) := by
  have h : pySlice ([] : List (Option ℚ)) jmin (jmax + 2) = [] := by
    simp [pySlice]
  rw [← h, List.getD_map, h]

/-- Entries of the two-dimensional data slice taken by `subset`, in terms of
the parent data. -/
theorem data_slice_qget (data : List (List (Option ℚ))) (nx : ℕ)
    (hrect : ∀ r ∈ data, r.length = nx)
    (imin imax jmin jmax a b : ℤ)
    (hi0 : 0 ≤ imin) (hj0 : 0 ≤ jmin) (ha0 : 0 ≤ a) (hb0 : 0 ≤ b)
    (ha : imin + a < imax + 2) (hb : jmin + b < jmax + 2)
    (hiub : imax + 2 ≤ (data.length : ℤ)) (hjub : jmax + 2 ≤ (nx : ℤ)) :
    qget ((pySlice data imin (imax + 2)).map
        fun row => pySlice row jmin (jmax + 2)) a b =
      qget data (imin + a) (jmin + b) := by
  unfold qget
  rw [pyGetD_nonneg _ _ ha0, pyGetD_nonneg _ _ hb0,
    pyGetD_nonneg _ _ (by omega : (0:ℤ) ≤ imin + a),
    pyGetD_nonneg _ _ (by omega : (0:ℤ) ≤ jmin + b)]
  rw [getD_map_pySlice]
  rw [pySlice_getD data [] imin (imax + 2) a.toNat hi0 (by omega) hiub]
  have hidx : imin.toNat + a.toNat = (imin + a).toNat := by omega
  rw [hidx]
  have hrowlen : (data.getD (imin + a).toNat []).length = nx := by
    apply hrect
    have hlt : (imin + a).toNat < data.length := by omega
    rw [List.getD_eq_getElem data [] hlt]
    exact data.getElem_mem hlt
  rw [pySlice_getD (data.getD (imin + a).toNat []) none jmin (jmax + 2) b.toNat
    hj0 (by omega) (by rw [hrowlen]; omega)]
  congr 1
  omega

/-- The cell index that `_index_of_point` computes on the sliced axis equals
the parent's cell index shifted by the slice offset, provided the query
point is strictly inside the slice's last entry or that entry coincides
with the parent's last entry.  The parent-domain membership of the point is
returned as well. -/
theorem clampIdx_slice (x : List ℚ) (jmin jmax : ℤ) (X : ℚ)
    (hux : uniformSpaced x) (hx2 : 2 ≤ x.length)
    (hx01 : x.getD 0 0 < x.getD 1 0)
    (hj0 : 0 ≤ jmin) (hjj : jmin ≤ jmax) (hjle : jmax ≤ (x.length : ℤ) - 2)
    (hX1 : (pySlice x jmin (jmax + 2)).getD 0 0 ≤ X)
    (hX2 : X ≤ (pySlice x jmin (jmax + 2)).getD
      ((pySlice x jmin (jmax + 2)).length - 1) 0)
    (hbnd : X < (pySlice x jmin (jmax + 2)).getD
        ((pySlice x jmin (jmax + 2)).length - 1) 0 ∨
      (pySlice x jmin (jmax + 2)).getD
        ((pySlice x jmin (jmax + 2)).length - 1) 0 =
        x.getD (x.length - 1) 0) :
    (x.getD 0 0 ≤ X ∧ X ≤ x.getD (x.length - 1) 0) ∧
      clampIdx (pySlice x jmin (jmax + 2)) X + jmin = clampIdx x X := by
  have hslen := pySlice_length x jmin (jmax + 2) hj0 (by omega) (by omega)
  have hget : ∀ k : ℕ, (k : ℤ) < jmax + 2 - jmin →
      (pySlice x jmin (jmax + 2)).getD k 0 = x.getD (jmin.toNat + k) 0 :=
    fun k hk => pySlice_getD x 0 jmin (jmax + 2) k hj0 (by omega) (by omega)
  set d : ℚ := x.getD 1 0 - x.getD 0 0 with hd
  have hdpos : 0 < d := by rw [hd]; linarith
  have hlast : (pySlice x jmin (jmax + 2)).getD
      ((pySlice x jmin (jmax + 2)).length - 1) 0 =
      x.getD (jmax.toNat + 1) 0 := by
    have hk : (((pySlice x jmin (jmax + 2)).length - 1 : ℕ) : ℤ) <
        jmax + 2 - jmin := by omega
    rw [hget _ hk]
    congr 1
    omega
  have h0 : (pySlice x jmin (jmax + 2)).getD 0 0 = x.getD jmin.toNat 0 := by
    have := hget 0 (by omega)
    simpa using this
  have h1 : (pySlice x jmin (jmax + 2)).getD 1 0 =
      x.getD (jmin.toNat + 1) 0 := by
    exact hget 1 (by omega)
  have hgapmin := hux jmin.toNat (by omega)
  have hd' : (pySlice x jmin (jmax + 2)).getD 1 0 -
      (pySlice x jmin (jmax + 2)).getD 0 0 = d := by
    rw [h0, h1, hd]
    exact hgapmin
  have hxjmin : x.getD jmin.toNat 0 = x.getD 0 0 + (jmin.toNat : ℚ) * d := by
    rw [hd]
    exact uniformSpaced_getD x hux jmin.toNat (by omega)
  have hxjmax1 : x.getD (jmax.toNat + 1) 0 =
      x.getD 0 0 + ((jmax.toNat : ℚ) + 1) * d := by
    rw [hd]
    have := uniformSpaced_getD x hux (jmax.toNat + 1) (by omega)
    push_cast at this ⊢
    linarith
  have hxlastval : x.getD (x.length - 1) 0 =
      x.getD 0 0 + (((x.length : ℚ)) - 1) * d := by
    rw [hd]
    have := uniformSpaced_getD x hux (x.length - 1) (by omega)
    rw [this]
    congr 2
    push_cast [Nat.cast_sub (by omega : 1 ≤ x.length)]
    ring
  have hXlow : x.getD 0 0 ≤ X := by
    have : x.getD 0 0 ≤ x.getD jmin.toNat 0 := by
      rw [hxjmin]
      have : (0 : ℚ) ≤ (jmin.toNat : ℚ) * d := by positivity
      linarith
    rw [h0] at hX1
    linarith
  have hXhigh : X ≤ x.getD (x.length - 1) 0 := by
    rw [hlast] at hX2
    have hle : x.getD (jmax.toNat + 1) 0 ≤ x.getD (x.length - 1) 0 := by
      rw [hxjmax1, hxlastval]
      have hcast : (jmax.toNat : ℚ) + 1 ≤ ((x.length : ℚ)) - 1 := by
        have : (jmax.toNat : ℤ) + 1 ≤ (x.length : ℤ) - 1 := by omega
        exact_mod_cast this
      nlinarith
    linarith
  refine ⟨⟨hXlow, hXhigh⟩, ?_⟩
  -- quotient on the slice equals the parent quotient shifted by jmin
  have hq : (X - (pySlice x jmin (jmax + 2)).getD 0 0) /
      ((pySlice x jmin (jmax + 2)).getD 1 0 -
        (pySlice x jmin (jmax + 2)).getD 0 0) =
      (X - x.getD 0 0) / d - ((jmin : ℤ) : ℚ) := by
    rw [hd', h0, hxjmin]
    have hcast : ((jmin.toNat : ℚ)) = ((jmin : ℤ) : ℚ) := by
      exact_mod_cast Int.toNat_of_nonneg hj0
    rw [show X - (x.getD 0 0 + (jmin.toNat : ℚ) * d) =
        (X - x.getD 0 0) - (jmin.toNat : ℚ) * d by ring]
    rw [sub_div, mul_div_assoc, div_self (ne_of_gt hdpos), mul_one, hcast]
  have hqpar : 0 ≤ (X - x.getD 0 0) / d := div_nonneg (by linarith) (by linarith)
  have hqsub : 0 ≤ (X - (pySlice x jmin (jmax + 2)).getD 0 0) /
      ((pySlice x jmin (jmax + 2)).getD 1 0 -
        (pySlice x jmin (jmax + 2)).getD 0 0) := by
    rw [hq]
    rw [h0] at hX1
    have hmul : ((jmin : ℤ) : ℚ) * d ≤ X - x.getD 0 0 := by
      have hcast : ((jmin.toNat : ℚ)) = ((jmin : ℤ) : ℚ) := by
        exact_mod_cast Int.toNat_of_nonneg hj0
      rw [← hcast]
      nlinarith [hxjmin, hX1]
    have := (le_div_iff₀ hdpos).mpr hmul
    linarith
  unfold clampIdx
  rw [← hd, pyInt_nonneg hqpar, pyInt_nonneg hqsub, hq, hslen]
  rw [Int.floor_sub_int]
  rcases hbnd with hlt | heq
  · -- strictly inside the slice: no clamping difference
    rw [hlast] at hlt
    have hq_lt : (X - x.getD 0 0) / d < (jmax.toNat : ℚ) + 1 := by
      rw [div_lt_iff₀ hdpos]
      nlinarith [hxjmax1, hlt]
    have hfl : ⌊(X - x.getD 0 0) / d⌋ < (jmax.toNat : ℤ) + 1 := by
      apply Int.floor_lt.mpr
      push_cast
      exact hq_lt
    have hjcast : (jmax.toNat : ℤ) = jmax := Int.toNat_of_nonneg (by omega)
    omega
  · -- the slice ends exactly at the parent boundary
    rw [hlast, hxjmax1, hxlastval] at heq
    have hfac : ((jmax.toNat : ℚ) + 1) * d = (((x.length : ℚ)) - 1) * d := by
      linarith
    have hcc : ((jmax.toNat : ℚ)) + 1 = ((x.length : ℚ)) - 1 :=
      mul_right_cancel₀ (ne_of_gt hdpos) hfac
    have hjint : (jmax.toNat : ℤ) + 1 = (x.length : ℤ) - 1 := by
      exact_mod_cast hcc
    have hjcast : (jmax.toNat : ℤ) = jmax := Int.toNat_of_nonneg (by omega)
    omega

/-- C8 (amended): for a well-formed grid with uniformly spaced strictly
increasing axes and a requested rectangle whose clamped corners are
in-domain and ordered, `subset` succeeds, the sub-grid's axis range
contains the clamped rectangle, and `evaluate` on the sub-grid agrees with
`evaluate` on the parent (same value, or the same error) at every point of
the sub-grid's domain that lies strictly inside the sub-grid's upper
boundary on each axis — or on an upper boundary that coincides with the
parent's.  (On a sub-grid upper boundary interior to the parent the two
grids resolve different cells, and the insufficient-data error may differ;
see the counterexample.) -/
theorem C8_subset_containment_agreement (g : GridData)
    (xmin ymin xmax ymax : ℚ)
    (hx2 : 2 ≤ g.x.length) (hy2 : 2 ≤ g.y.length)
    (hdlen : g.data.length = g.y.length)
    (hrect : rectangular g.data g.x.length)
    (hsx : strictIncr g.x) (hsy : strictIncr g.y)
    (hux : uniformSpaced g.x) (huy : uniformSpaced g.y)
    (hdom1 : inDomain g.x g.y (max xmin (g.x.getD 0 0)) (max ymin (g.y.getD 0 0)))
    (hdom2 : inDomain g.x g.y (min xmax (g.x.getD (g.x.length - 1) 0))
      (min ymax (g.y.getD (g.y.length - 1) 0)))
    (hxle : max xmin (g.x.getD 0 0) ≤ min xmax (g.x.getD (g.x.length - 1) 0))
    (hyle : max ymin (g.y.getD 0 0) ≤ min ymax (g.y.getD (g.y.length - 1) 0)) :
    ∃ g', g.subset xmin ymin xmax ymax = .ok g' ∧
      (g'.x.getD 0 0 ≤ max xmin (g.x.getD 0 0) ∧
        min xmax (g.x.getD (g.x.length - 1) 0) ≤
          g'.x.getD (g'.x.length - 1) 0 ∧
        g'.y.getD 0 0 ≤ max ymin (g.y.getD 0 0) ∧
        min ymax (g.y.getD (g.y.length - 1) 0) ≤
          g'.y.getD (g'.y.length - 1) 0) ∧
      (∀ X Y : ℚ, inDomain g'.x g'.y X Y →
        (X < g'.x.getD (g'.x.length - 1) 0 ∨
          g'.x.getD (g'.x.length - 1) 0 = g.x.getD (g.x.length - 1) 0) →
        (Y < g'.y.getD (g'.y.length - 1) 0 ∨
          g'.y.getD (g'.y.length - 1) 0 = g.y.getD (g.y.length - 1) 0) →
        g'.evaluate (X, Y) = g.evaluate (X, Y)) := by
  have hx01 : g.x.getD 0 0 < g.x.getD 1 0 := hsx 0 (by omega)
  have hy01 : g.y.getD 0 0 < g.y.getD 1 0 := hsy 0 (by omega)
  obtain ⟨imin, jmin, imax, jmax, e1, e2, hi0, hii, hile, hj0, hjj, hjle, hok⟩ :=
    subset_ok_core g xmin ymin xmax ymax hx2 hy2 hdlen hrect hx01 hy01
      hdom1 hdom2 hxle hyle
  have hclamp1 := index_of_point_ok_clamp g.x g.y _ _ hdom1
  rw [e1] at hclamp1
  have hpair1 := (Except.ok.injEq _ _).mp hclamp1
  have himin : imin = clampIdx g.y (max ymin (g.y.getD 0 0)) :=
    congrArg Prod.fst hpair1
  have hjmin : jmin = clampIdx g.x (max xmin (g.x.getD 0 0)) :=
    congrArg Prod.snd hpair1
  have hclamp2 := index_of_point_ok_clamp g.x g.y _ _ hdom2
  rw [e2] at hclamp2
  have hpair2 := (Except.ok.injEq _ _).mp hclamp2
  have himax : imax = clampIdx g.y (min ymax (g.y.getD (g.y.length - 1) 0)) :=
    congrArg Prod.fst hpair2
  have hjmax : jmax = clampIdx g.x (min xmax (g.x.getD (g.x.length - 1) 0)) :=
    congrArg Prod.snd hpair2
  -- axis-slice facts
  have hxslen := pySlice_length g.x jmin (jmax + 2) hj0 (by omega) (by omega)
  have hyslen := pySlice_length g.y imin (imax + 2) hi0 (by omega) (by omega)
  have hxs0 : (pySlice g.x jmin (jmax + 2)).getD 0 0 = g.x.getD jmin.toNat 0 := by
    have := pySlice_getD g.x 0 jmin (jmax + 2) 0 hj0 (by omega) (by omega)
    simpa using this
  have hxs1 : (pySlice g.x jmin (jmax + 2)).getD 1 0 =
      g.x.getD (jmin.toNat + 1) 0 :=
    pySlice_getD g.x 0 jmin (jmax + 2) 1 hj0 (by omega) (by omega)
  have hys0 : (pySlice g.y imin (imax + 2)).getD 0 0 = g.y.getD imin.toNat 0 := by
    have := pySlice_getD g.y 0 imin (imax + 2) 0 hi0 (by omega) (by omega)
    simpa using this
  have hys1 : (pySlice g.y imin (imax + 2)).getD 1 0 =
      g.y.getD (imin.toNat + 1) 0 :=
    pySlice_getD g.y 0 imin (imax + 2) 1 hi0 (by omega) (by omega)
  have hxslast : (pySlice g.x jmin (jmax + 2)).getD
      ((pySlice g.x jmin (jmax + 2)).length - 1) 0 =
      g.x.getD (jmax.toNat + 1) 0 := by
    have hk : (((pySlice g.x jmin (jmax + 2)).length - 1 : ℕ) : ℤ) <
        jmax + 2 - jmin := by omega
    rw [pySlice_getD g.x 0 jmin (jmax + 2) _ hj0 hk (by omega)]
    congr 1
    omega
  have hyslast : (pySlice g.y imin (imax + 2)).getD
      ((pySlice g.y imin (imax + 2)).length - 1) 0 =
      g.y.getD (imax.toNat + 1) 0 := by
    have hk : (((pySlice g.y imin (imax + 2)).length - 1 : ℕ) : ℤ) <
        imax + 2 - imin := by omega
    rw [pySlice_getD g.y 0 imin (imax + 2) _ hi0 hk (by omega)]
    congr 1
    omega
  have hxgap := hux jmin.toNat (by omega)
  have hygap := huy imin.toNat (by omega)
  have hxs01 : (pySlice g.x jmin (jmax + 2)).getD 0 0 <
      (pySlice g.x jmin (jmax + 2)).getD 1 0 := by
    rw [hxs0, hxs1]
    linarith
  have hys01 : (pySlice g.y imin (imax + 2)).getD 0 0 <
      (pySlice g.y imin (imax + 2)).getD 1 0 := by
    rw [hys0, hys1]
    linarith
  have hbrx := clamped_cell_brackets g.x (max xmin (g.x.getD 0 0)) jmin hux hx2
    hx01 hdom1.1 hdom1.2.1 (by rw [hjmin]; rfl)
  have hbry := clamped_cell_brackets g.y (max ymin (g.y.getD 0 0)) imin huy hy2
    hy01 hdom1.2.2.1 hdom1.2.2.2 (by rw [himin]; rfl)
  have hbrx2 := clamped_cell_brackets g.x
    (min xmax (g.x.getD (g.x.length - 1) 0)) jmax hux hx2 hx01
    hdom2.1 hdom2.2.1 (by rw [hjmax]; rfl)
  have hbry2 := clamped_cell_brackets g.y
    (min ymax (g.y.getD (g.y.length - 1) 0)) imax huy hy2 hy01
    hdom2.2.2.1 hdom2.2.2.2 (by rw [himax]; rfl)
  refine ⟨_, hok, ⟨?_, ?_, ?_, ?_⟩, ?_⟩
  · show (pySlice g.x jmin (jmax + 2)).getD 0 0 ≤ max xmin (g.x.getD 0 0)
    rw [hxs0]
    exact hbrx.2.2.1
  · show min xmax (g.x.getD (g.x.length - 1) 0) ≤
      (pySlice g.x jmin (jmax + 2)).getD
        ((pySlice g.x jmin (jmax + 2)).length - 1) 0
    rw [hxslast]
    exact hbrx2.2.2.2
  · show (pySlice g.y imin (imax + 2)).getD 0 0 ≤ max ymin (g.y.getD 0 0)
    rw [hys0]
    exact hbry.2.2.1
  · show min ymax (g.y.getD (g.y.length - 1) 0) ≤
      (pySlice g.y imin (imax + 2)).getD
        ((pySlice g.y imin (imax + 2)).length - 1) 0
    rw [hyslast]
    exact hbry2.2.2.2
  intro X Y hdomSub hbx hby
  have hslicex := clampIdx_slice g.x jmin jmax X hux hx2 hx01 hj0 hjj hjle
    hdomSub.1 hdomSub.2.1 hbx
  have hslicey := clampIdx_slice g.y imin imax Y huy hy2 hy01 hi0 hii hile
    hdomSub.2.2.1 hdomSub.2.2.2 hby
  obtain ⟨⟨hXl, hXh⟩, hshiftx⟩ := hslicex
  obtain ⟨⟨hYl, hYh⟩, hshifty⟩ := hslicey
  have hdomPar : inDomain g.x g.y X Y := ⟨hXl, hXh, hYl, hYh⟩
  have hidxp := index_of_point_ok_clamp g.x g.y X Y hdomPar
  have hidxs := index_of_point_ok_clamp (pySlice g.x jmin (jmax + 2))
    (pySlice g.y imin (imax + 2)) X Y hdomSub
  have hjs0 : 0 ≤ clampIdx (pySlice g.x jmin (jmax + 2)) X :=
    clampIdx_nonneg _ _ (by omega) hxs01 hdomSub.1
  have his0 : 0 ≤ clampIdx (pySlice g.y imin (imax + 2)) Y :=
    clampIdx_nonneg _ _ (by omega) hys01 hdomSub.2.2.1
  have hjsle : clampIdx (pySlice g.x jmin (jmax + 2)) X ≤
      ((pySlice g.x jmin (jmax + 2)).length : ℤ) - 2 := clampIdx_le _ _
  have hisle : clampIdx (pySlice g.y imin (imax + 2)) Y ≤
      ((pySlice g.y imin (imax + 2)).length : ℤ) - 2 := clampIdx_le _ _
  have hc00 : qget ((pySlice g.data imin (imax + 2)).map
      fun row => pySlice row jmin (jmax + 2))
      (clampIdx (pySlice g.y imin (imax + 2)) Y)
      (clampIdx (pySlice g.x jmin (jmax + 2)) X) =
      qget g.data (clampIdx g.y Y) (clampIdx g.x X) := by
    rw [data_slice_qget g.data g.x.length hrect imin imax jmin jmax _ _
      hi0 hj0 his0 hjs0 (by omega) (by omega) (by omega) (by omega)]
    rw [show imin + clampIdx (pySlice g.y imin (imax + 2)) Y =
        clampIdx g.y Y by omega,
      show jmin + clampIdx (pySlice g.x jmin (jmax + 2)) X =
        clampIdx g.x X by omega]
  have hc01 : qget ((pySlice g.data imin (imax + 2)).map
      fun row => pySlice row jmin (jmax + 2))
      (clampIdx (pySlice g.y imin (imax + 2)) Y)
      (clampIdx (pySlice g.x jmin (jmax + 2)) X + 1) =
      qget g.data (clampIdx g.y Y) (clampIdx g.x X + 1) := by
    rw [data_slice_qget g.data g.x.length hrect imin imax jmin jmax _ _
      hi0 hj0 his0 (by omega) (by omega) (by omega) (by omega) (by omega)]
    rw [show imin + clampIdx (pySlice g.y imin (imax + 2)) Y =
        clampIdx g.y Y by omega,
      show jmin + (clampIdx (pySlice g.x jmin (jmax + 2)) X + 1) =
        clampIdx g.x X + 1 by omega]
  have hc10 : qget ((pySlice g.data imin (imax + 2)).map
      fun row => pySlice row jmin (jmax + 2))
      (clampIdx (pySlice g.y imin (imax + 2)) Y + 1)
      (clampIdx (pySlice g.x jmin (jmax + 2)) X) =
      qget g.data (clampIdx g.y Y + 1) (clampIdx g.x X) := by
    rw [data_slice_qget g.data g.x.length hrect imin imax jmin jmax _ _
      hi0 hj0 (by omega) hjs0 (by omega) (by omega) (by omega) (by omega)]
    rw [show imin + (clampIdx (pySlice g.y imin (imax + 2)) Y + 1) =
        clampIdx g.y Y + 1 by omega,
      show jmin + clampIdx (pySlice g.x jmin (jmax + 2)) X =
        clampIdx g.x X by omega]
  have hc11 : qget ((pySlice g.data imin (imax + 2)).map
      fun row => pySlice row jmin (jmax + 2))
      (clampIdx (pySlice g.y imin (imax + 2)) Y + 1)
      (clampIdx (pySlice g.x jmin (jmax + 2)) X + 1) =
      qget g.data (clampIdx g.y Y + 1) (clampIdx g.x X + 1) := by
    rw [data_slice_qget g.data g.x.length hrect imin imax jmin jmax _ _
      hi0 hj0 (by omega) (by omega) (by omega) (by omega) (by omega) (by omega)]
    rw [show imin + (clampIdx (pySlice g.y imin (imax + 2)) Y + 1) =
        clampIdx g.y Y + 1 by omega,
      show jmin + (clampIdx (pySlice g.x jmin (jmax + 2)) X + 1) =
        clampIdx g.x X + 1 by omega]
  have hmiss : is_missing ((pySlice g.data imin (imax + 2)).map
      fun row => pySlice row jmin (jmax + 2))
      (clampIdx (pySlice g.y imin (imax + 2)) Y)
      (clampIdx (pySlice g.x jmin (jmax + 2)) X) =
      is_missing g.data (clampIdx g.y Y) (clampIdx g.x X) := by
    unfold is_missing
    rw [hc00, hc01, hc10, hc11]
  have haxj : pyGetD (pySlice g.x jmin (jmax + 2)) 0
      (clampIdx (pySlice g.x jmin (jmax + 2)) X) =
      pyGetD g.x 0 (clampIdx g.x X) := by
    rw [pyGetD_nonneg _ _ hjs0, pyGetD_nonneg _ _ (by omega : 0 ≤ clampIdx g.x X)]
    rw [pySlice_getD g.x 0 jmin (jmax + 2) _ hj0 (by omega) (by omega)]
    congr 1
    omega
  have hayi : pyGetD (pySlice g.y imin (imax + 2)) 0
      (clampIdx (pySlice g.y imin (imax + 2)) Y) =
      pyGetD g.y 0 (clampIdx g.y Y) := by
    rw [pyGetD_nonneg _ _ his0, pyGetD_nonneg _ _ (by omega : 0 ≤ clampIdx g.y Y)]
    rw [pySlice_getD g.y 0 imin (imax + 2) _ hi0 (by omega) (by omega)]
    congr 1
    omega
  have hdxeq : pyGetD (pySlice g.x jmin (jmax + 2)) 0 1 -
      pyGetD (pySlice g.x jmin (jmax + 2)) 0 0 =
      pyGetD g.x 0 1 - pyGetD g.x 0 0 := by
    rw [pyGetD_zero, pyGetD_one, pyGetD_zero, pyGetD_one, hxs0, hxs1]
    linarith
  have hdyeq : pyGetD (pySlice g.y imin (imax + 2)) 0 1 -
      pyGetD (pySlice g.y imin (imax + 2)) 0 0 =
      pyGetD g.y 0 1 - pyGetD g.y 0 0 := by
    rw [pyGetD_zero, pyGetD_one, pyGetD_zero, pyGetD_one, hys0, hys1]
    linarith
  show GridData.evaluate
      ⟨pySlice g.x jmin (jmax + 2), pySlice g.y imin (imax + 2),
        (pySlice g.data imin (imax + 2)).map
          fun row => pySlice row jmin (jmax + 2)⟩ (X, Y) =
    g.evaluate (X, Y)
  rcases hmval : is_missing g.data (clampIdx g.y Y) (clampIdx g.x X) with _ | _
  · rw [GridData.evaluate, GridData.evaluate,
      bilinear_interp_value
        ⟨pySlice g.x jmin (jmax + 2), pySlice g.y imin (imax + 2),
          (pySlice g.data imin (imax + 2)).map
            fun row => pySlice row jmin (jmax + 2)⟩ X Y _ _ hidxs
        (hmiss.trans hmval),
      bilinear_interp_value g X Y _ _ hidxp hmval]
    rw [hc00, hc01, hc10, hc11, haxj, hayi, hdxeq, hdyeq]
  · rw [GridData.evaluate, GridData.evaluate,
      bilinear_interp_missing
        ⟨pySlice g.x jmin (jmax + 2), pySlice g.y imin (imax + 2),
          (pySlice g.data imin (imax + 2)).map
            fun row => pySlice row jmin (jmax + 2)⟩ X Y _ _ hidxs
        (hmiss.trans hmval),
      bilinear_interp_missing g X Y _ _ hidxp hmval]

/-- C8 counterexample: on `x = [0,1,2,3]`, `y = [0,1]` with the sample at
`(0, 2)` masked, `subset(0, 0, 0.5, 1)` returns the sub-grid over
`x = [0,1]`, `y = [0,1]` with no masked cell.  The point `(1, 0.5)` is
in-domain for both grids, yet the parent resolves it to the cell with the
masked corner and fails with the insufficient-data error while the
sub-grid returns the value `1` — so `evaluate` on a common point does not
always return the same value or the same error kind from both grids. -/
theorem C8_subset_agreement_counterexample :
    (⟨[0, 1, 2, 3], [0, 1],
      [[some 1, some 1, none, some 1], [some 1, some 1, some 1, some 1]]⟩ :
      GridData).subset 0 0 (1/2) 1 =
      .ok ⟨[0, 1], [0, 1], [[some 1, some 1], [some 1, some 1]]⟩ ∧
    (⟨[0, 1, 2, 3], [0, 1],
      [[some 1, some 1, none, some 1], [some 1, some 1, some 1, some 1]]⟩ :
      GridData).evaluate (1, 1/2) = .error .insufficientData ∧
    (⟨[0, 1], [0, 1], [[some 1, some 1], [some 1, some 1]]⟩ :
      GridData).evaluate (1, 1/2) = .ok 1 := by
  refine ⟨?_, ?_, ?_⟩
  · rw [subset_eq _ 0 0 (1/2) 1 0 0 0 0
      (by rw [index_of_point_ok _ _ _ _
          (by norm_num [inDomain, List.getD, max_def, min_def])]
          norm_num [List.getD, pyInt, max_def, min_def])
      (by rw [index_of_point_ok _ _ _ _
          (by norm_num [inDomain, List.getD, max_def, min_def])]
          norm_num [List.getD, pyInt, max_def, min_def])]
    decide
  · rw [GridData.evaluate, bilinear_interp_missing _ 1 (1/2) 0 1
      (by rw [index_of_point_ok _ _ _ _ (by norm_num [inDomain, List.getD])]
          norm_num [List.getD, pyInt])
      (by decide)]
  · rw [GridData.evaluate, bilinear_interp_value _ 1 (1/2) 0 0
      (by rw [index_of_point_ok _ _ _ _ (by norm_num [inDomain, List.getD])]
          norm_num [List.getD, pyInt])
      (by decide)]
    norm_num [qget, pyGetD, pyIdx, List.getD]

/-- C8 witness: the spec's example — `x = [0,1,2,3]`, `y = [0,1,2]`,
all-ones values, `subset(0.5, 0.5, 1.5, 1.5)` — succeeds, the resulting
grid is exactly the one over `x = [0,1,2]`, `y = [0,1,2]` (so its axis
range spans at least `[0,2] × [0,2]`), the sub-grid range contains the
clamped rectangle, and the agreement conclusion holds at every interior
point. -/
theorem C8_subset_containment_agreement_witness :
    ∃ g', (⟨[0, 1, 2, 3], [0, 1, 2],
        [[some 1, some 1, some 1, some 1], [some 1, some 1, some 1, some 1],
         [some 1, some 1, some 1, some 1]]⟩ : GridData).subset
        (1/2) (1/2) (3/2) (3/2) = .ok g' ∧
      (g'.x.getD 0 0 ≤ 0 ∧ (2 : ℚ) ≤ g'.x.getD (g'.x.length - 1) 0 ∧
        g'.y.getD 0 0 ≤ 0 ∧ (2 : ℚ) ≤ g'.y.getD (g'.y.length - 1) 0) ∧
      (g'.x.getD 0 0 ≤ max (1/2) (([0, 1, 2, 3] : List ℚ).getD 0 0) ∧
        min (3/2) (([0, 1, 2, 3] : List ℚ).getD 3 0) ≤
          g'.x.getD (g'.x.length - 1) 0 ∧
        g'.y.getD 0 0 ≤ max (1/2) (([0, 1, 2] : List ℚ).getD 0 0) ∧
        min (3/2) (([0, 1, 2] : List ℚ).getD 2 0) ≤
          g'.y.getD (g'.y.length - 1) 0) ∧
      (∀ X Y : ℚ, inDomain g'.x g'.y X Y →
        (X < g'.x.getD (g'.x.length - 1) 0 ∨
          g'.x.getD (g'.x.length - 1) 0 = ([0, 1, 2, 3] : List ℚ).getD 3 0) →
        (Y < g'.y.getD (g'.y.length - 1) 0 ∨
          g'.y.getD (g'.y.length - 1) 0 = ([0, 1, 2] : List ℚ).getD 2 0) →
        g'.evaluate (X, Y) =
          (⟨[0, 1, 2, 3], [0, 1, 2],
            [[some 1, some 1, some 1, some 1], [some 1, some 1, some 1, some 1],
             [some 1, some 1, some 1, some 1]]⟩ : GridData).evaluate (X, Y)) := by
  obtain ⟨g', hok, hcont, hagree⟩ := C8_subset_containment_agreement
    ⟨[0, 1, 2, 3], [0, 1, 2],
      [[some 1, some 1, some 1, some 1], [some 1, some 1, some 1, some 1],
       [some 1, some 1, some 1, some 1]]⟩ (1/2) (1/2) (3/2) (3/2)
    (by decide) (by decide) (by decide)
    (by intro r hr; fin_cases hr <;> rfl)
    (by decide) (by decide) uniformSpaced_0123 uniformSpaced_012
    (by constructor
        · norm_num [List.getD, max_def]
        · refine ⟨?_, ?_, ?_⟩ <;> norm_num [List.getD, max_def])
    (by constructor
        · norm_num [List.getD, min_def]
        · refine ⟨?_, ?_, ?_⟩ <;> norm_num [List.getD, min_def])
    (by norm_num [List.getD, max_def, min_def])
    (by norm_num [List.getD, max_def, min_def])
  have hconc : (⟨[0, 1, 2, 3], [0, 1, 2],
      [[some 1, some 1, some 1, some 1], [some 1, some 1, some 1, some 1],
       [some 1, some 1, some 1, some 1]]⟩ : GridData).subset
      (1/2) (1/2) (3/2) (3/2) =
      .ok ⟨[0, 1, 2], [0, 1, 2],
        [[some 1, some 1, some 1], [some 1, some 1, some 1],
         [some 1, some 1, some 1]]⟩ := by
    rw [subset_eq _ (1/2) (1/2) (3/2) (3/2) 0 0 1 1
      (by rw [index_of_point_ok _ _ _ _
          (by norm_num [inDomain, List.getD, max_def])]
          norm_num [List.getD, pyInt, max_def])
      (by rw [index_of_point_ok _ _ _ _
          (by norm_num [inDomain, List.getD, min_def])]
          norm_num [List.getD, pyInt, min_def])]
    decide
  rw [hok] at hconc
  have hg : g' = ⟨[0, 1, 2], [0, 1, 2],
      [[some 1, some 1, some 1], [some 1, some 1, some 1],
       [some 1, some 1, some 1]]⟩ := (Except.ok.injEq _ _).mp hconc
  refine ⟨g', hok, ?_, hcont, hagree⟩
  rw [hg]
  refine ⟨?_, ?_, ?_, ?_⟩ <;> norm_num [List.getD]

end Icepack
